import Mathlib

/-!
Verification of the autowsl provisioning core against its specification.

This file gives a shallow embedding, in Lean 4, of the core logic of the
repository: the WSL listing parser (`internal/wsl/status.go`,
`internal/wsl/client.go`), the importer (`internal/wsl/importer.go`),
the extra-vars parser (`internal/playbooks/extravars.go`), the Ansible
package-manager detection / ensure / install engine and command builder
(`internal/ansible/executor.go`), and the provisioning pipeline loop
(`cmd/provision.go` / `cmd/root.go`).

External process execution is modelled by an oracle
`Nat → String → String → Bool` (invocation counter, distro, command)
deciding whether each issued command succeeds, together with an explicit
trace of issued commands; Go maps whose iteration order is irrelevant are
modelled as functions `String → Option _`, and the extra-vars map whose
iteration order matters is modelled as an association list in an
arbitrary order.
-/

namespace AutoWSL

/-! ### Character classes and basic string utilities (Go semantics) -/

/-- Go regexp `\s` character class: `[\t\n\f\r ]`. -/
def isGoSpace (c : Char) : Bool :=
  c = ' ' || c = '\t' || c = '\n' || c = (Char.ofNat 12) || c = '\r'

/-- Go `unicode.IsSpace`, as used by `strings.TrimSpace`. -/
def isGoUnicodeSpace (c : Char) : Bool :=
  c = '\t' || c = '\n' || c = (Char.ofNat 11) || c = (Char.ofNat 12) || c = '\r' ||
  c = ' ' || c = (Char.ofNat 0x85) || c = (Char.ofNat 0xA0) ||
  c = (Char.ofNat 0x1680) ||
  (0x2000 ≤ c.toNat && c.toNat ≤ 0x200A) ||
  c = (Char.ofNat 0x2028) || c = (Char.ofNat 0x2029) ||
  c = (Char.ofNat 0x202F) || c = (Char.ofNat 0x205F) || c = (Char.ofNat 0x3000)

/-- Go regexp `\w` character class: `[0-9A-Za-z_]`. -/
def isWordChar (c : Char) : Bool :=
  ('a' ≤ c && c ≤ 'z') || ('A' ≤ c && c ≤ 'Z') || ('0' ≤ c && c ≤ '9') || c = '_'

/-- Go regexp `\d` character class: `[0-9]`. -/
def isDigitChar (c : Char) : Bool := '0' ≤ c && c ≤ '9'

/-- `strings.TrimSpace` on a character list: drop Unicode space on both ends. -/
def trimGoL (l : List Char) : List Char :=
  ((l.dropWhile isGoUnicodeSpace).reverse.dropWhile isGoUnicodeSpace).reverse

/-- `strings.TrimSpace` on a string. -/
def trimGo (s : String) : String := String.mk (trimGoL s.data)

/-- `strings.Contains` on character lists (substring search). -/
def listContains : List Char → List Char → Bool
  | s, pat =>
    if pat.isPrefixOf s then true
    else
      match s with
      | [] => false
      | _ :: t => listContains t pat

/-- `strings.Contains`. -/
def goContains (s pat : String) : Bool := listContains s.data pat.data

/-- `strings.HasPrefix`. -/
def goHasPrefix (s pat : String) : Bool := pat.data.isPrefixOf s.data

/-- `strings.ToLower` (ASCII range, which covers every string the core
compares case-insensitively). -/
def goToLower (s : String) : String := String.mk (s.data.map Char.toLower)

/-- `fmt.Sprintf` applied to the package-manager install templates, each of
which contains exactly one `%s` verb: substitute the package name for the
first `%s`. -/
def substPercentSL (pkg : List Char) : List Char → List Char
  | [] => []
  | '%' :: 's' :: rest => pkg ++ rest
  | c :: rest => c :: substPercentSL pkg rest

/-- `fmt.Sprintf template pkg` for a single-`%s` template. -/
def substPercentS (template pkg : String) : String :=
  String.mk (substPercentSL pkg.data template.data)

/-! ### `internal/playbooks/extravars.go` — ParseExtraVars -/

/-- A Go `map[string]string`, modelled as a lookup function (iteration
order never matters for the claims about maps modelled this way). -/
def GoMap := String → Option String

/-- The empty Go map. -/
def GoMap.empty : GoMap := fun _ => none

/-- Go map assignment `m[k] = v`. -/
def GoMap.insert (m : GoMap) (k v : String) : GoMap :=
  fun x => if x = k then some v else m x

/-- The text before the first `=` of an entry. -/
def keyPart (kv : String) : String := String.mk (kv.data.takeWhile (· ≠ '='))

/-- The text after the first `=` of an entry. -/
def valPart (kv : String) : String := String.mk ((kv.data.dropWhile (· ≠ '=')).drop 1)

/-- `strings.SplitN kv "=" 2`: the text before the first `=` and the text
after it, or `none` when `kv` has no `=` (then `SplitN` yields one part). -/
def splitN2Eq (kv : String) : Option (String × String) :=
  if goContains kv "=" then some (keyPart kv, valPart kv) else none

/-- The trimmed key of an entry. -/
def entryKey (kv : String) : String := trimGo (keyPart kv)

/-- The trimmed value of an entry. -/
def entryVal (kv : String) : String := trimGo (valPart kv)

/-- An entry is well-formed when it contains `=` and the trimmed text
before its first `=` is non-empty (the success condition of C10). -/
def goodEntry (kv : String) : Bool :=
  goContains kv "=" && entryKey kv ≠ ""

/-- Loop body of `ParseExtraVars`, folding the entries into the map.
When `SplitN` yields two parts, the trimmed first part is `entryKey kv`
and the trimmed second part is `entryVal kv`. -/
def parseExtraVarsGo (m : GoMap) : List String → Except String GoMap
  | [] => .ok m
  | kv :: rest =>
    match splitN2Eq kv with
    | none => .error ("invalid extra-vars entry: " ++ kv ++ " (expected key=val)")
    | some _ =>
      if entryKey kv = "" then .error ("empty key in extra-vars entry: " ++ kv)
      else parseExtraVarsGo (m.insert (entryKey kv) (entryVal kv)) rest

/-- `ParseExtraVars` from `internal/playbooks/extravars.go`: convert
`key=val` strings into a map. -/
def ParseExtraVars (kvs : List String) : Except String GoMap :=
  parseExtraVarsGo GoMap.empty kvs

/-! ### `internal/ansible/executor.go` — buildAnsibleCommand -/

/-- `PlaybookOptions` (executor.go); the extra-vars map is carried as an
association list in the (arbitrary) order Go map iteration yields. -/
structure PlaybookOptions where
  distroName : String
  playbookPath : String
  tags : List String
  verbose : Bool
  extraVars : List (String × String)

/-- `buildAnsibleCommand` (executor.go): constructs the full
`ansible-playbook` invocation string. -/
def buildAnsibleCommand (playbookPath : String) (opts : PlaybookOptions) : String :=
  let base := "ansible-playbook " ++ playbookPath ++ " --connection=local -i localhost,"
  let base := if opts.tags.length > 0 then
      base ++ " --tags " ++ String.intercalate "," opts.tags
    else base
  let base := if opts.verbose then base ++ " -vvv" else base
  if opts.extraVars.length > 0 then
    base ++ " --extra-vars '" ++
      String.intercalate " " (opts.extraVars.map (fun kv => kv.1 ++ "=" ++ kv.2)) ++ "'"
  else base

/-! ### `internal/wsl/status.go` / `client.go` — the listing parsers -/

/-- `InstalledDistro` (client.go): one installed WSL distribution. -/
structure InstalledDistro where
  name : String
  state : String
  version : String
  isdefault : Bool
deriving DecidableEq, Repr

/-- The tail of the verbose-line regex after the optional `*` marker:
`([^\s]+)\s+(\w+)\s+(\d+)\s*$`, matched greedily (backtracking never
changes the outcome for this pattern, see the claim proofs). -/
def parseCore (l : List Char) : Option (List Char × List Char × List Char) :=
  let name := l.takeWhile (fun c => !isGoSpace c)
  let rest1 := l.dropWhile (fun c => !isGoSpace c)
  if name.isEmpty then none
  else
    let rest2 := rest1.dropWhile isGoSpace
    if (rest1.takeWhile isGoSpace).isEmpty then none
    else
      let stateW := rest2.takeWhile isWordChar
      let rest3 := rest2.dropWhile isWordChar
      if stateW.isEmpty then none
      else
        let rest4 := rest3.dropWhile isGoSpace
        if (rest3.takeWhile isGoSpace).isEmpty then none
        else
          let ver := rest4.takeWhile isDigitChar
          let rest5 := rest4.dropWhile isDigitChar
          if ver.isEmpty then none
          else if rest5.all isGoSpace then some (name, stateW, ver)
          else none

/-- The verbose-line regex `^\s*(\*?)\s*([^\s]+)\s+(\w+)\s+(\d+)\s*$` of
`parseWSLList`.  The only backtracking point of the regex is the optional
`*`: when consuming the `*` makes the rest fail, the `*` is re-read as the
first character of the name, with the marker group empty. -/
def matchVerboseLine (l : List Char) :
    Option (Bool × List Char × List Char × List Char) :=
  let r := l.dropWhile isGoSpace
  match r with
  | '*' :: r2 =>
    match parseCore (r2.dropWhile isGoSpace) with
    | some x => some (true, x)
    | none => (parseCore r).map (fun x => (false, x))
  | _ => (parseCore r).map (fun x => (false, x))

/-- Per-line step of `parseWSLList`: trim, skip blank lines, apply the
regex, build the record (the Go code re-trims the captured groups). -/
def parseVerboseLine (line : List Char) : Option InstalledDistro :=
  let t := trimGoL line
  if t.isEmpty then none
  else
    match matchVerboseLine t with
    | some (star, name, stateW, ver) =>
      some ⟨trimGo (String.mk name), trimGo (String.mk stateW),
            trimGo (String.mk ver), star⟩
    | none => none

/-- Cleanup stage of both parsers: remove null bytes
(`strings.ReplaceAll(output, "\x00", "")`) and a leading BOM
(`strings.TrimPrefix(output, "﻿")`). -/
def cleanOutput (output : String) : List Char :=
  let cs := output.data.filter (fun c => c ≠ (Char.ofNat 0))
  match cs with
  | c :: rest => if c = (Char.ofNat 0xFEFF) then rest else cs
  | [] => []

/-- Header check of `parseWSLList`: the line contains `NAME` or `---`. -/
def isHeaderLine (l : List Char) : Bool :=
  listContains l "NAME".data || listContains l "---".data

/-- Header skip of `parseWSLList`: everything up to and including the
first line containing a header marker is discarded; when no marker
exists, the whole output is data. -/
def skipHeader (lines : List (List Char)) : List (List Char) :=
  match lines.findIdx? isHeaderLine with
  | some i => lines.drop (i + 1)
  | none => lines

/-- The data lines of a verbose listing output: cleanup, split on
newlines, drop the header prefix. -/
def dataLines (output : String) : List (List Char) :=
  skipHeader ((cleanOutput output).splitOn '\n')

/-- `parseWSLList` (status.go / client.go): parse the output of
`wsl -l -v`.  The Go function never returns an error, so the error slot
is omitted. -/
def parseWSLList (output : String) : List InstalledDistro :=
  (dataLines output).filterMap parseVerboseLine

/-- One replacement pass of `strings.ReplaceAll l pat ""` for a
non-empty pattern (the code only uses the pattern `"(Default)"`). -/
def removeAllSub (pat : List Char) : List Char → List Char
  | [] => []
  | c :: t =>
    if h : pat ≠ [] ∧ pat.isPrefixOf (c :: t) then
      removeAllSub pat ((c :: t).drop pat.length)
    else c :: removeAllSub pat t
termination_by l => l.length
decreasing_by
  · simp only [List.length_drop, List.length_cons]
    have : 1 ≤ pat.length := by
      cases hp : pat with
      | nil => exact absurd hp h.1
      | cons a as => simp
    omega
  · simp

/-- Per-line step of `parseWSLListBasic` (legacy `wsl -l` output parser,
client.go). -/
def parseBasicLine (raw : List Char) : Option InstalledDistro :=
  let line := trimGoL raw
  if line.isEmpty then none
  else
    let lw := (String.mk line).data.map Char.toLower
    if goHasPrefix (String.mk lw) "windows subsystem for linux" ||
       listContains lw "distributions:".data ||
       goHasPrefix (String.mk lw) "the following" then none
    else
      let defaultFlag := listContains line "(Default)".data
      let line := if defaultFlag then trimGoL (removeAllSub "(Default)".data line) else line
      let line := line.dropWhile (fun c => c = '*' || c = ' ')
      if line.isEmpty then none
      else some ⟨String.mk line, "", "", defaultFlag⟩

/-- `parseWSLListBasic` (client.go): parse the legacy `wsl -l` output. -/
def parseWSLListBasic (output : String) : List InstalledDistro :=
  ((cleanOutput output).splitOn '\n').filterMap parseBasicLine

/-! ### `internal/wsl/client.go` — ListInstalledDistros with fallback -/

/-- Result of one call on the process execution port (`runner.Runner`):
stdout, stderr, and an optional error (carrying the Go error message). -/
structure RunResult where
  stdout : String
  stderr : String
  err : Option String

/-- The process execution port: a pure map from command and arguments to
a result (each listing claim needs at most one call per argument list). -/
def Runner := String → List String → RunResult

/-- Externally observable invocations of the importer and lister. -/
inductive WslEvent where
  | stat (path : String)
  | mkdirAll (path : String)
  | run (cmd : String) (args : List String)
deriving DecidableEq, Repr

/-- The benign-failure check of `ListInstalledDistros`: lower-case the
combined error text and look for one of the fixed sentinel substrings. -/
def benignMatch (combined : String) : Bool :=
  let lowered := goToLower combined
  ["0xffffffff", "element not found", "no installed distributions"].any
    (fun ind => goContains lowered ind)

/-- `Client.ListInstalledDistros` (client.go) together with the trace of
port invocations it performs: try `wsl -l -v`, fall back to `wsl -l`,
and when both fail either classify the failure as benign (empty list) or
propagate a combined error referencing both failures. -/
def ListInstalledDistrosE (r : Runner) :
    Except String (List InstalledDistro) × List WslEvent :=
  let p := r "wsl.exe" ["-l", "-v"]
  match p.err with
  | none => (.ok (parseWSLList p.stdout), [.run "wsl.exe" ["-l", "-v"]])
  | some e1 =>
    let f := r "wsl.exe" ["-l"]
    match f.err with
    | none => (.ok (parseWSLListBasic f.stdout),
               [.run "wsl.exe" ["-l", "-v"], .run "wsl.exe" ["-l"]])
    | some e2 =>
      let combined := String.intercalate "\n" [p.stderr, f.stderr, e1, e2]
      if benignMatch combined then
        (.ok [], [.run "wsl.exe" ["-l", "-v"], .run "wsl.exe" ["-l"]])
      else
        (.error ("failed to list WSL distributions: " ++ e1 ++ " | fallback: " ++ e2),
         [.run "wsl.exe" ["-l", "-v"], .run "wsl.exe" ["-l"]])

/-- `ListInstalledDistros`: the result of the listing call. -/
def ListInstalledDistros (r : Runner) : Except String (List InstalledDistro) :=
  (ListInstalledDistrosE r).1

/-- `Client.IsDistroInstalled` (client.go). -/
def IsDistroInstalled (r : Runner) (name : String) : Except String Bool :=
  match ListInstalledDistros r with
  | .error e => .error e
  | .ok ds => .ok (ds.any (fun d => d.name = name))

/-! ### `internal/ansible/executor.go` — package-manager engine

Every external command the engine issues goes through
`wsl.exe -d <distro> sh -c <cmd>`.  The model records each issued command
in a trace, tagged with the issuing call site, and asks an oracle
(indexed by a global invocation counter, so that repeating a command may
give a different outcome, as for the update-then-retry path) whether the
command succeeds. -/

/-- `packageManager` (executor.go). -/
structure PackageManager where
  name : String
  checkCmd : String
  installCmd : String
  updateCmd : String
  preInstallSteps : List String
  ansiblePostInstallCmds : List String
  isAnsibleCore : Bool
  description : String
deriving DecidableEq, Repr

/-- The `apt` entry of `supportedPMs`. -/
def aptPM : PackageManager :=
  { name := "apt", checkCmd := "command -v apt-get",
    installCmd := "sudo apt-get install -y %s", updateCmd := "sudo apt-get update",
    preInstallSteps := ["sudo apt-get install -y python3-apt"],
    ansiblePostInstallCmds := [], isAnsibleCore := false,
    description := "Ubuntu/Debian/Kali" }

/-- The `dnf` entry of `supportedPMs`. -/
def dnfPM : PackageManager :=
  { name := "dnf", checkCmd := "command -v dnf",
    installCmd := "sudo dnf install -y %s", updateCmd := "",
    preInstallSteps := ["sudo dnf install -y oracle-epel-release-el9 || true"],
    ansiblePostInstallCmds := [], isAnsibleCore := true,
    description := "Fedora/Oracle Linux/RHEL 8+" }

/-- The `yum` entry of `supportedPMs`. -/
def yumPM : PackageManager :=
  { name := "yum", checkCmd := "command -v yum",
    installCmd := "sudo yum install -y %s", updateCmd := "",
    preInstallSteps := ["sudo yum install -y epel-release || true"],
    ansiblePostInstallCmds := [], isAnsibleCore := false,
    description := "RHEL/CentOS/Oracle Linux 7" }

/-- The `zypper` entry of `supportedPMs`. -/
def zypperPM : PackageManager :=
  { name := "zypper", checkCmd := "command -v zypper",
    installCmd := "sudo zypper --non-interactive install -y %s", updateCmd := "",
    preInstallSteps := [],
    ansiblePostInstallCmds :=
      ["sudo zypper --non-interactive install -y python3-dbus-python",
       "ansible-galaxy collection install community.general --force"],
    isAnsibleCore := false, description := "openSUSE" }

/-- The `pacman` entry of `supportedPMs`. -/
def pacmanPM : PackageManager :=
  { name := "pacman", checkCmd := "command -v pacman",
    installCmd := "sudo pacman -S --noconfirm %s", updateCmd := "",
    preInstallSteps := [], ansiblePostInstallCmds := [], isAnsibleCore := false,
    description := "Arch Linux" }

/-- The `apk` entry of `supportedPMs`. -/
def apkPM : PackageManager :=
  { name := "apk", checkCmd := "command -v apk",
    installCmd := "sudo apk add %s", updateCmd := "",
    preInstallSteps := [], ansiblePostInstallCmds := [], isAnsibleCore := false,
    description := "Alpine Linux" }

/-- `supportedPMs` (executor.go), in registry priority order. -/
def supportedPMs : List PackageManager :=
  [aptPM, dnfPM, yumPM, zypperPM, pacmanPM, apkPM]

/-- Call site issuing a guest command (all call sites execute
`wsl.exe -d <distro> sh -c <cmd>`; the tag records which source line
issued it). -/
inductive CmdKind where
  | presence
  | detection
  | grepKali
  | collection
  | run
deriving DecidableEq, Repr

/-- One issued guest command. -/
structure TraceEntry where
  kind : CmdKind
  cmd : String
deriving DecidableEq, Repr

/-- `memoizedPMs` (executor.go): the detection memo. -/
def Memo := String → Option PackageManager

/-- Mutable context threaded through the engine: invocation counter,
trace of issued commands, detection memo. -/
structure ExecState where
  counter : Nat
  trace : List TraceEntry
  memo : Memo

/-- The initial engine state: empty memo, empty trace. -/
def initState : ExecState := ⟨0, [], fun _ => none⟩

/-- Success oracle of the execution port: invocation counter, distro,
command. -/
def Oracle := Nat → String → String → Bool

/-- Issue one guest command: ask the oracle, bump the counter, record
the command. -/
def issue (o : Oracle) (k : CmdKind) (d cmd : String) (s : ExecState) :
    Bool × ExecState :=
  (o s.counter d cmd, ⟨s.counter + 1, s.trace ++ [⟨k, cmd⟩], s.memo⟩)

/-- `runWslCommand` (executor.go): run a command in the guest, failing
with a wrapped message. -/
def runWslCommand (o : Oracle) (d cmd : String) (s : ExecState) :
    Except String Unit × ExecState :=
  let r := issue o .run d cmd s
  (if r.1 then .ok () else .error ("command '" ++ cmd ++ "' failed"), r.2)

/-- The registry scan of `detectPackageManager`: probe each profile's
`checkCmd` in order; the first success is memoized and returned. -/
def detectLoop (o : Oracle) (d : String) :
    List PackageManager → ExecState → Except String PackageManager × ExecState
  | [], s =>
    (.error ("could not detect a supported package manager in distribution '" ++ d ++ "'"), s)
  | pm :: rest, s =>
    let r := issue o .detection d pm.checkCmd s
    if r.1 then
      (.ok pm, { r.2 with memo := fun x => if x = d then some pm else r.2.memo x })
    else detectLoop o d rest r.2

/-- `detectPackageManager` (executor.go): consult the memo, else scan the
registry. -/
def detectPackageManager (o : Oracle) (d : String) (s : ExecState) :
    Except String PackageManager × ExecState :=
  match s.memo d with
  | some pm => (.ok pm, s)
  | none => detectLoop o d supportedPMs s

/-- Run a list of guest commands in order, stopping at the first failure
and wrapping its message with `wrap` (used for pre-install and
post-install step sequences). -/
def runWslSteps (o : Oracle) (d : String) (wrap : String → String → String) :
    List String → ExecState → Except String Unit × ExecState
  | [], s => (.ok (), s)
  | c :: rest, s =>
    match runWslCommand o d c s with
    | (.ok _, s') => runWslSteps o d wrap rest s'
    | (.error e, s') => (.error (wrap c e), s')

/-- Message wrapper for a failed pre-install step. -/
def wrapPre (step e : String) : String :=
  "pre-install step '" ++ step ++ "' failed: " ++ e

/-- Message wrapper for a failed Ansible post-install step. -/
def wrapPost (step e : String) : String :=
  "ansible post-install step ('" ++ step ++ "') failed: " ++ e

/-- The `sed`/`echo` rewrite of the Kali sources list (executor.go). -/
def kaliUpdateSourcesCmd : String :=
  "sudo sh -c 'sed -i \"s/^deb/#deb/g\" /etc/apt/sources.list && echo \"deb [signed-by=/usr/share/keyrings/kali-archive-keyring.gpg] https://kali.download/kali kali-rolling main contrib non-free non-free-firmware\" >> /etc/apt/sources.list'"

/-- The keyring download command of the Kali repair (executor.go). -/
def kaliDownloadKeyCmd : String :=
  "wget -q https://archive.kali.org/archive-keyring.gpg -O /tmp/kali-archive-keyring.gpg && sudo mv /tmp/kali-archive-keyring.gpg /usr/share/keyrings/kali-archive-keyring.gpg"

/-- `fixKaliRepositories` (executor.go): fingerprint the distribution;
non-Kali guests are a no-op, Kali guests get the repair sequence (backup
is best-effort, every later step is fatal). -/
def fixKaliRepositories (o : Oracle) (d : String) (s : ExecState) :
    Except String Unit × ExecState :=
  let k := issue o .grepKali d "grep -i kali /etc/os-release" s
  if !k.1 then (.ok (), k.2)
  else
    let b := runWslCommand o d
      "sudo cp /etc/apt/sources.list /etc/apt/sources.list.bak 2>/dev/null || true" k.2
    match runWslCommand o d kaliUpdateSourcesCmd b.2 with
    | (.error e, s1) => (.error ("failed to update sources.list: " ++ e), s1)
    | (.ok _, s1) =>
      match runWslCommand o d kaliDownloadKeyCmd s1 with
      | (.error e, s2) => (.error ("failed to download Kali archive keyring: " ++ e), s2)
      | (.ok _, s2) =>
        match runWslCommand o d "sudo apt-get update" s2 with
        | (.error e, s3) => (.error ("failed to update package lists: " ++ e), s3)
        | (.ok _, s3) =>
          match runWslCommand o d "sudo apt-get install -y gnupg" s3 with
          | (.error e, s4) => (.error ("failed to install gnupg: " ++ e), s4)
          | (.ok _, s4) => (.ok (), s4)

/-- `InstallPackage` (executor.go): detect the manager, run its
pre-install steps, install (substituting `ansible-core` when the profile
flags it), then run the Ansible post-install steps when installing
Ansible. -/
def InstallPackage (o : Oracle) (d pkg : String) (s : ExecState) :
    Except String Unit × ExecState :=
  match detectPackageManager o d s with
  | (.error e, s0) => (.error e, s0)
  | (.ok pm, s0) =>
    match runWslSteps o d wrapPre pm.preInstallSteps s0 with
    | (.error e, s1) => (.error e, s1)
    | (.ok _, s1) =>
      let installPkgName := if pkg = "ansible" && pm.isAnsibleCore then "ansible-core" else pkg
      match runWslCommand o d (substPercentS pm.installCmd installPkgName) s1 with
      | (.error e, s2) => (.error e, s2)
      | (.ok _, s2) =>
        if pkg = "ansible" && pm.ansiblePostInstallCmds.length > 0 then
          runWslSteps o d wrapPost pm.ansiblePostInstallCmds s2
        else (.ok (), s2)

/-- The repository-repair command applied when `apt-get update` fails
(executor.go). -/
def aptFixSourcesCmd : String :=
  "sudo sed -i '/bullseye-backports/d' /etc/apt/sources.list /etc/apt/sources.list.d/* 2>/dev/null || true"

/-- `ensurePackage` (executor.go): presence probe; when satisfied, only
the Ansible collection re-check can add work; otherwise detect the
manager, prepare apt repositories (Kali repair, update with one
fix-and-retry), and delegate to `InstallPackage`. -/
def ensurePackage (o : Oracle) (d cmdName pkg : String) (s : ExecState) :
    Except String Unit × ExecState :=
  let p := issue o .presence d ("command -v " ++ cmdName) s
  if p.1 then
    if pkg = "ansible" then
      match detectPackageManager o d p.2 with
      | (.ok pm, s0) =>
        if pm.ansiblePostInstallCmds.length > 0 then
          if pm.name = "zypper" then
            let c := issue o .collection d
              "ansible-galaxy collection list | grep -q community.general" s0
            if !c.1 then runWslSteps o d wrapPost pm.ansiblePostInstallCmds c.2
            else (.ok (), c.2)
          else (.ok (), s0)
        else (.ok (), s0)
      | (.error _, s0) => (.ok (), s0)
    else (.ok (), p.2)
  else
    match detectPackageManager o d p.2 with
    | (.error e, s0) => (.error e, s0)
    | (.ok pm, s0) =>
      if pm.name = "apt" then
        match fixKaliRepositories o d s0 with
        | (.error e, s1) => (.error e, s1)
        | (.ok _, s1) =>
          let k := issue o .grepKali d "grep -i kali /etc/os-release" s1
          if !k.1 then
            match runWslCommand o d pm.updateCmd k.2 with
            | (.ok _, s2) => InstallPackage o d pkg s2
            | (.error _, s2) =>
              let f := runWslCommand o d aptFixSourcesCmd s2
              match runWslCommand o d pm.updateCmd f.2 with
              | (.ok _, s3) => InstallPackage o d pkg s3
              | (.error e, s3) =>
                (.error ("apt-get update failed even after attempting to fix broken sources: " ++ e), s3)
          else InstallPackage o d pkg k.2
      else InstallPackage o d pkg s0

/-- A trace entry is an install command for package `pkg` when it equals
some registry profile's install template instantiated with `pkg` (or its
`ansible-core` alias when that profile flags the alias). -/
def isInstallCmdFor (pkg : String) (e : TraceEntry) : Bool :=
  supportedPMs.any (fun pm =>
    e.cmd = substPercentS pm.installCmd
      (if pkg = "ansible" && pm.isAnsibleCore then "ansible-core" else pkg))

/-- A memo is well-formed when it only holds registry profiles — the
invariant the engine maintains, since only `detectLoop` writes the memo. -/
def MemoWF (m : Memo) : Prop := ∀ d pm, m d = some pm → pm ∈ supportedPMs

/-! ### `cmd/root.go` — the provisioning pipeline -/

/-- `ExecutionResult` (summary.go): the status field holds the literal
Go strings `"success"` / `"failed"`.  The duration and wrapped error are
irrelevant to every claim and omitted. -/
structure ExecutionResult where
  playbookName : String
  status : String
deriving DecidableEq, Repr

/-- `ExecutionSummary.HasFailures` over the recorded results. -/
def summaryHasFailures (rs : List ExecutionResult) : Bool :=
  rs.any (fun r => r.status = "failed")

/-- The playbook loop of `runProvisioningPipeline`: run each resolved
path in order (`exec` abstracts `ansible.ExecutePlaybook`; `base`
abstracts `filepath.Base`), record a `success`/`failed` result, and stop
at the first failure.  Returns the summary results and the list of paths
actually executed. -/
def runPlaybooks (base : String → String) (exec : String → Bool) :
    List String → List ExecutionResult × List String
  | [] => ([], [])
  | p :: rest =>
    if exec p then
      let r := runPlaybooks base exec rest
      (⟨base p, "success"⟩ :: r.1, p :: r.2)
    else ([⟨base p, "failed"⟩], [p])

/-- `runProvisioningPipeline` (cmd/root.go): parse extra-vars, create the
temp dir, resolve the playbook inputs (`resolve` abstracts
`playbooks.Resolver.ResolveMultiple`), run the loop, and fail exactly
when the summary has failures.  Returns the pipeline error, the summary
results, and the paths executed. -/
def runProvisioningPipeline (base : String → String) (exec : String → Bool)
    (resolve : List String → Except String (List String)) (tempDirOk : Bool)
    (extraVars : List String) (inputs : List String) :
    Except String Unit × List ExecutionResult × List String :=
  match (if extraVars.length > 0 then ParseExtraVars extraVars else .ok GoMap.empty) with
  | .error e => (.error ("invalid extra-vars: " ++ e), [], [])
  | .ok _ =>
    if !tempDirOk then (.error "failed to create temp dir", [], [])
    else
      match resolve inputs with
      | .error e => (.error ("failed to resolve playbooks: " ++ e), [], [])
      | .ok paths =>
        if paths.length = 0 then (.error "no playbooks resolved", [], [])
        else
          let r := runPlaybooks base exec paths
          ((if summaryHasFailures r.1 then .error "provisioning completed with failures"
            else .ok ()), r.1, r.2)

/-! ### `internal/wsl/importer.go` — Import -/

/-- `ImportOptions` (importer.go). -/
structure ImportOptions where
  name : String
  installPath : String
  tarFilePath : String
  version : Nat
deriving DecidableEq, Repr

/-- `Client.Import` (importer.go), with the trace of filesystem and port
invocations it performs: validate the three string fields, stat the tar
file, create the installation directory, check the name is not already
registered (via `IsDistroInstalled` → `ListInstalledDistros`), then run
`wsl --import`.  `tarExists` abstracts `os.Stat`/`os.IsNotExist`,
`mkdirOk` abstracts `os.MkdirAll`, `abs` abstracts `filepath.Abs`. -/
def Import (r : Runner) (tarExists : String → Bool) (mkdirOk : String → Bool)
    (abs : String → String) (opts : ImportOptions) :
    Except String Unit × List WslEvent :=
  if opts.name = "" then (.error "distribution name cannot be empty", [])
  else if opts.installPath = "" then (.error "installation path cannot be empty", [])
  else if opts.tarFilePath = "" then (.error "tar file path cannot be empty", [])
  else
    let ev0 := [WslEvent.stat opts.tarFilePath]
    if !tarExists opts.tarFilePath then
      (.error ("tar file does not exist: " ++ opts.tarFilePath), ev0)
    else
      let ev1 := ev0 ++ [WslEvent.mkdirAll opts.installPath]
      if !mkdirOk opts.installPath then
        (.error "failed to create installation directory", ev1)
      else
        let le := ListInstalledDistrosE r
        let ev2 := ev1 ++ le.2
        match le.1 with
        | .error e => (.error ("failed to check if distro exists: " ++ e), ev2)
        | .ok ds =>
          if ds.any (fun dd => dd.name = opts.name) then
            (.error ("distribution '" ++ opts.name ++ "' already exists"), ev2)
          else
            let version := if opts.version = 0 then 2 else opts.version
            let args := ["--import", opts.name, abs opts.installPath,
                         abs opts.tarFilePath, "--version", toString version]
            let res := r "wsl.exe" args
            let ev3 := ev2 ++ [WslEvent.run "wsl.exe" args]
            match res.err with
            | some e =>
              (.error ("failed to import distribution: " ++ e ++ "\nOutput: " ++ res.stderr), ev3)
            | none => (.ok (), ev3)

/-! ### Specification-side notions used to state the claims -/

/-- `Except.isOk` as a Bool. -/
def exceptIsOk {ε α : Type} : Except ε α → Bool
  | .ok _ => true
  | .error _ => false

/-- The value Go map-assignment semantics gives to key `k` after folding
the entries of `kvs` in order: the trimmed value of the last entry whose
trimmed key is `k`. -/
def lastEntryVal (kvs : List String) (k : String) : Option String :=
  (kvs.reverse.find? (fun kv => entryKey kv = k)).map entryVal

/-- A parsed well-formed verbose data line, per the specification's shape
`[*] name state-word version-digits`. -/
structure LineSpec where
  star : Bool
  nameF : List Char
  stateF : List Char
  verF : List Char

/-- The record the specification expects `parse` to produce for a
well-formed data line. -/
def recordOfSpec (sp : LineSpec) : InstalledDistro :=
  ⟨String.mk sp.nameF, String.mk sp.stateF, String.mk sp.verF, sp.star⟩

/-- The specification's shape of a verbose data line (following the
spec's words): optional leading `*` marker, then a non-whitespace name
(not itself beginning with the marker character), a word-character state,
and a digit version, separated by whitespace, with optional surrounding
padding. -/
def ShapedLine (l : List Char) (sp : LineSpec) : Prop :=
  ∃ pad0 ws0 ws1 ws2 pad1 : List Char,
    l = pad0 ++ ((if sp.star then '*' :: ws0 else []) ++
        (sp.nameF ++ (ws1 ++ (sp.stateF ++ (ws2 ++ sp.verF))))) ++ pad1 ∧
    (∀ c ∈ pad0, isGoUnicodeSpace c) ∧ (∀ c ∈ pad1, isGoUnicodeSpace c) ∧
    (∀ c ∈ ws0, isGoSpace c) ∧
    ws1 ≠ [] ∧ (∀ c ∈ ws1, isGoSpace c) ∧
    ws2 ≠ [] ∧ (∀ c ∈ ws2, isGoSpace c) ∧
    sp.nameF ≠ [] ∧ (∀ c ∈ sp.nameF, isGoUnicodeSpace c = false) ∧
    sp.nameF.head? ≠ some '*' ∧
    sp.stateF ≠ [] ∧ (∀ c ∈ sp.stateF, isWordChar c) ∧
    sp.verF ≠ [] ∧ (∀ c ∈ sp.verF, isDigitChar c)

/-- The shape of one listing line: either blank (no record) or
well-formed with a given decomposition. -/
def LineShape (l : List Char) : Option LineSpec → Prop
  | none => trimGoL l = []
  | some sp => ShapedLine l sp

/-- The two-line scenario input of the specification. -/
def exampleListing : String :=
  "  NAME   STATE   VERSION\n* Ubuntu-22.04   Running   2\n  Debian   Stopped   2\n"

/-! ### Concrete port instantiations used by the witnesses -/

/-- An oracle under which every guest command succeeds. -/
def alwaysTrueOracle : Oracle := fun _ _ _ => true

/-- Oracle of the `ensurePackage git` scenario: the git presence probe
fails, the Kali fingerprint probe fails, everything else succeeds (so apt
is detected and update/install succeed). -/
def gitAptOracle : Oracle := fun _ _ c =>
  if c = "command -v git" then false
  else if c = "grep -i kali /etc/os-release" then false
  else true

/-- Oracle of the update-retry scenario: as `gitAptOracle`, except that
`sudo apt-get update` succeeds only on its second issue (invocation
counter 5, after presence probe 0, two Kali greps 1–2, first update 3,
corrective action 4). -/
def retryOracle : Oracle := fun n _ c =>
  if c = "command -v git" then false
  else if c = "grep -i kali /etc/os-release" then false
  else if c = "sudo apt-get update" then decide (n = 5)
  else true

/-- An engine state whose memo already holds apt for the guest `Debian`. -/
def aptMemoState : ExecState :=
  ⟨0, [], fun x => if x = "Debian" then some aptPM else none⟩

/-- A runner under which both listing commands fail with the benign
`0xffffffff` sentinel in stderr. -/
def benignRunner : Runner := fun _ _ =>
  ⟨"", "Error: 0xffffffff", some "exit status 0xffffffff"⟩

/-- A runner under which both listing commands fail with unrecognized
errors. -/
def brokenRunner : Runner := fun _ args =>
  if args = ["-l", "-v"] then ⟨"", "boom one", some "exit status 1"⟩
  else ⟨"", "boom two", some "exit status 2"⟩

/-- A runner whose verbose listing succeeds and lists `Ubuntu-22.04` and
`Debian`. -/
def listingRunner : Runner := fun _ args =>
  if args = ["-l", "-v"] then ⟨exampleListing, "", none⟩
  else ⟨"", "", some "exit status 1"⟩

/-! ## Theorems -/

/-! ### C8 — extra-vars rendering in the constructed command -/

/-- C8: for every non-empty extra-vars map, the constructed playbook
invocation command contains the exact substring `--extra-vars` followed
by a single-quoted, space-joined list of `key=value` pairs in the order
the map yields its entries; in particular the map
`{user: john, env: dev}` yields exactly the substring
`--extra-vars 'user=john env=dev'` or `--extra-vars 'env=dev user=john'`
(depending on the iteration order). -/
theorem buildAnsibleCommand_extraVars (playbookPath : String) (opts : PlaybookOptions)
    (h : opts.extraVars ≠ []) :
    (∃ a b : String, buildAnsibleCommand playbookPath opts =
        a ++ ("--extra-vars '" ++ String.intercalate " "
          (opts.extraVars.map (fun kv => kv.1 ++ "=" ++ kv.2)) ++ "'") ++ b) ∧
    ((opts.extraVars = [("user", "john"), ("env", "dev")] ∨
      opts.extraVars = [("env", "dev"), ("user", "john")]) →
      (∃ a b : String, buildAnsibleCommand playbookPath opts =
          a ++ "--extra-vars 'user=john env=dev'" ++ b) ∨
      (∃ a b : String, buildAnsibleCommand playbookPath opts =
          a ++ "--extra-vars 'env=dev user=john'" ++ b)) := by
  have hlen : opts.extraVars.length > 0 := by
    cases hx : opts.extraVars with
    | nil => exact absurd hx h
    | cons a as => simp
  have key : ∀ base : String,
      base ++ " --extra-vars '" ++ String.intercalate " "
          (opts.extraVars.map (fun kv => kv.1 ++ "=" ++ kv.2)) ++ "'" =
      (base ++ " ") ++ ("--extra-vars '" ++ String.intercalate " "
          (opts.extraVars.map (fun kv => kv.1 ++ "=" ++ kv.2)) ++ "'") ++ "" := by
    intro base
    rw [String.append_empty,
        show (" --extra-vars '" : String) = " " ++ "--extra-vars '" from rfl]
    simp only [String.append_assoc]
  have hgen : ∃ a b : String, buildAnsibleCommand playbookPath opts =
      a ++ ("--extra-vars '" ++ String.intercalate " "
        (opts.extraVars.map (fun kv => kv.1 ++ "=" ++ kv.2)) ++ "'") ++ b := by
    simp only [buildAnsibleCommand, hlen, if_pos]
    exact ⟨_, "", key _⟩
  refine ⟨hgen, ?_⟩
  intro hcase
  obtain ⟨a, b, hab⟩ := hgen
  rcases hcase with hc | hc
  · rw [hc] at hab
    exact Or.inl ⟨a, b, by rw [hab]; rfl⟩
  · rw [hc] at hab
    exact Or.inr ⟨a, b, by rw [hab]; rfl⟩

/-- Witness for C8 at a concrete non-empty extra-vars list. -/
theorem buildAnsibleCommand_extraVars_witness :
    [("user", "john"), ("env", "dev")] ≠ ([] : List (String × String)) ∧
    (∃ a b : String,
      buildAnsibleCommand "/tmp/autowsl-playbook.yml"
          ⟨"U", "/tmp/autowsl-playbook.yml", [], false, [("user", "john"), ("env", "dev")]⟩ =
        a ++ "--extra-vars 'user=john env=dev'" ++ b) ∨
    (∃ a b : String,
      buildAnsibleCommand "/tmp/autowsl-playbook.yml"
          ⟨"U", "/tmp/autowsl-playbook.yml", [], false, [("user", "john"), ("env", "dev")]⟩ =
        a ++ "--extra-vars 'env=dev user=john'" ++ b) := by
  have := (buildAnsibleCommand_extraVars "/tmp/autowsl-playbook.yml"
    ⟨"U", "/tmp/autowsl-playbook.yml", [], false, [("user", "john"), ("env", "dev")]⟩
    (by simp)).2 (Or.inl rfl)
  rcases this with h | h
  · exact Or.inl ⟨by simp, h⟩
  · exact Or.inr h

/-! ### C10 — ParseExtraVars -/

/-- The loop of `ParseExtraVars` succeeds exactly when each entry is
well-formed. -/
theorem parseExtraVarsGo_isOk (kvs : List String) :
    ∀ m, exceptIsOk (parseExtraVarsGo m kvs) = kvs.all goodEntry := by
  induction kvs with
  | nil => intro m; rfl
  | cons kv rest ih =>
    intro m
    simp only [parseExtraVarsGo, List.all_cons]
    by_cases hx : goContains kv "=" = true
    · simp only [splitN2Eq, hx, if_true]
      by_cases hk : entryKey kv = ""
      · simp [hk, exceptIsOk, goodEntry, hx]
      · simp [hk, ih, goodEntry, hx]
    · simp only [splitN2Eq, hx]
      simp [exceptIsOk, goodEntry, hx]

/-- The loop of `ParseExtraVars` implements last-binding-wins map
semantics over the trimmed keys and values. -/
theorem parseExtraVarsGo_lookup (kvs : List String) :
    ∀ (m m' : GoMap), parseExtraVarsGo m kvs = .ok m' →
      ∀ k, m' k = (lastEntryVal kvs k).or (m k) := by
  induction kvs with
  | nil =>
    intro m m' hp k
    simp only [parseExtraVarsGo] at hp
    cases hp
    simp [lastEntryVal]
  | cons kv rest ih =>
    intro m m' hp k
    simp only [parseExtraVarsGo] at hp
    by_cases hx : goContains kv "=" = true
    · simp only [splitN2Eq, hx, if_true] at hp
      by_cases hk : entryKey kv = ""
      · rw [if_pos hk] at hp
        cases hp
      · rw [if_neg hk] at hp
        have hrec := ih _ _ hp k
        rw [hrec]
        simp only [lastEntryVal, List.reverse_cons, List.find?_append]
        cases hfind : List.find? (fun kv => decide (entryKey kv = k)) rest.reverse with
        | some kv' => simp [hfind, Option.or]
        | none =>
          by_cases hkk : entryKey kv = k
          · simp [hfind, List.find?, hkk, GoMap.insert, Option.or]
          · have h1 : m.insert (entryKey kv) (entryVal kv) k = m k := by
              simp only [GoMap.insert]
              exact if_neg (fun heq => hkk heq.symm)
            simp [hfind, List.find?, hkk, h1, Option.or]
    · simp [splitN2Eq, hx] at hp

/-- C10: `ParseExtraVars` succeeds iff every entry contains `=` with a
non-empty trimmed key; on success it binds each trimmed key to its
trimmed value with later entries overwriting earlier ones; and on
failure the pipeline rejects the input before any playbook is resolved
or executed (its outcome does not depend on the resolver, and it
executes nothing). -/
theorem ParseExtraVars_spec (kvs : List String) :
    (exceptIsOk (ParseExtraVars kvs) = kvs.all goodEntry) ∧
    (∀ m, ParseExtraVars kvs = .ok m → ∀ k, m k = lastEntryVal kvs k) ∧
    (∀ (base : String → String) (exec : String → Bool)
       (res1 res2 : List String → Except String (List String)) (tempOk : Bool)
       (inputs : List String) (e : String),
       ParseExtraVars kvs = .error e →
       runProvisioningPipeline base exec res1 tempOk kvs inputs =
           (.error ("invalid extra-vars: " ++ e), [], []) ∧
       runProvisioningPipeline base exec res1 tempOk kvs inputs =
           runProvisioningPipeline base exec res2 tempOk kvs inputs) := by
  refine ⟨parseExtraVarsGo_isOk kvs GoMap.empty, ?_, ?_⟩
  · intro m hp k
    have := parseExtraVarsGo_lookup kvs GoMap.empty m hp k
    rw [this]
    simp [GoMap.empty]
  · intro base exec res1 res2 tempOk inputs e herr
    have hne : kvs.length > 0 := by
      cases kvs with
      | nil => simp [ParseExtraVars, parseExtraVarsGo] at herr
      | cons a as => simp
    constructor
    · simp [runProvisioningPipeline, hne, herr]
    · simp [runProvisioningPipeline, hne, herr]

/-- Witness for C10: the success characterization at a concrete good
list (later entry overwrites), and the failure clause at a concrete bad
list. -/
theorem ParseExtraVars_spec_witness :
    ((((GoMap.empty.insert "user" "john").insert "env" "dev").insert "user" "jane") "user"
        = lastEntryVal ["user=john", "env=dev", "user = jane"] "user" ∧
      lastEntryVal ["user=john", "env=dev", "user = jane"] "user" = some "jane") ∧
    runProvisioningPipeline id (fun _ => true) (fun _ => .ok ["a"]) true
        ["nokey"] [] =
      (.error ("invalid extra-vars: " ++
        "invalid extra-vars entry: nokey (expected key=val)"), [], []) := by
  refine ⟨⟨?_, by decide⟩, ?_⟩
  · exact (ParseExtraVars_spec ["user=john", "env=dev", "user = jane"]).2.1 _ rfl "user"
  · exact ((ParseExtraVars_spec ["nokey"]).2.2 id (fun _ => true)
      (fun _ => .ok ["a"]) (fun _ => .ok ["a"]) true [] _ rfl).1

/-! ### C1 — pipeline abort law -/

/-- C1: for every ordered list of resolved playbook paths `[A, B, C]`
where executing A succeeds and executing B fails, the pipeline's summary
contains exactly the records for A (success) and B (failed), C is never
executed (the executed-path trace is exactly `[A, B]`), and — whenever
the run reaches the playbook loop — the pipeline returns a non-nil error
exactly when some recorded result has `failed` status. -/
theorem runProvisioningPipeline_abortLaw
    (base : String → String) (exec : String → Bool)
    (resolve : List String → Except String (List String))
    (evs inputs : List String) (A B C : String)
    (hev : exceptIsOk (if evs.length > 0 then ParseExtraVars evs else .ok GoMap.empty) = true)
    (hres : resolve inputs = .ok [A, B, C])
    (hA : exec A = true) (hB : exec B = false) :
    runProvisioningPipeline base exec resolve true evs inputs =
      (.error "provisioning completed with failures",
       [⟨base A, "success"⟩, ⟨base B, "failed"⟩], [A, B]) ∧
    (∀ (resolve' : List String → Except String (List String)) (paths : List String),
       resolve' inputs = .ok paths → paths ≠ [] →
       ((runProvisioningPipeline base exec resolve' true evs inputs).1 ≠ .ok () ↔
         summaryHasFailures
           (runProvisioningPipeline base exec resolve' true evs inputs).2.1 = true)) := by
  obtain ⟨m, hm⟩ : ∃ m, (if evs.length > 0 then ParseExtraVars evs else .ok GoMap.empty) = .ok m := by
    cases hp : (if evs.length > 0 then ParseExtraVars evs else .ok GoMap.empty) with
    | ok m => exact ⟨m, rfl⟩
    | error e => rw [hp] at hev; simp [exceptIsOk] at hev
  constructor
  · simp only [runProvisioningPipeline, hm, hres]
    simp [runPlaybooks, hA, hB, summaryHasFailures]
  · intro resolve' paths hres' hne
    simp only [runProvisioningPipeline, hm, hres']
    have hlen : ¬ paths.length = 0 := by
      intro h0
      exact hne (List.length_eq_zero.mp h0)
    simp only [Bool.not_true, Bool.false_eq_true, if_false, hlen, if_neg]
    cases hfail : summaryHasFailures (runPlaybooks base exec paths).1 with
    | true => simp
    | false => simp

/-- Witness for C1 at a concrete three-playbook pipeline whose second
playbook fails. -/
theorem runProvisioningPipeline_abortLaw_witness :
    runProvisioningPipeline id (fun p => p ≠ "B") (fun _ => .ok ["A", "B", "C"]) true [] [] =
      (.error "provisioning completed with failures",
       [⟨"A", "success"⟩, ⟨"B", "failed"⟩], ["A", "B"]) := by
  exact (runProvisioningPipeline_abortLaw id (fun p => p ≠ "B")
    (fun _ => .ok ["A", "B", "C"]) [] [] "A" "B" "C"
    (by decide) rfl (by decide) (by decide)).1

/-! ### C4 — detection is memoized and idempotent -/

/-- The registry scan records the winning profile in the memo. -/
theorem detectLoop_memo_eq (o : Oracle) (d : String) :
    ∀ (pms : List PackageManager) (s : ExecState) (pm : PackageManager),
      (detectLoop o d pms s).1 = .ok pm → (detectLoop o d pms s).2.memo d = some pm := by
  intro pms
  induction pms with
  | nil => intro s pm h; simp [detectLoop] at h
  | cons q rest ih =>
    intro s pm h
    simp only [detectLoop] at h ⊢
    cases hr : o s.counter d q.checkCmd with
    | true =>
      simp only [issue, hr, if_true] at h ⊢
      cases h
      simp
    | false =>
      simp only [issue, hr, Bool.false_eq_true, if_false] at h ⊢
      exact ih _ _ h

/-- C4: package-manager detection is idempotent and memoized — when a
detect call returns a profile, an immediately following detect call for
the same guest returns the same profile and leaves the engine state
(counter, trace, memo) untouched, issuing zero additional detection
probes. -/
theorem detectPackageManager_idem (o : Oracle) (d : String) (s : ExecState)
    (pm : PackageManager) (h : (detectPackageManager o d s).1 = .ok pm) :
    detectPackageManager o d (detectPackageManager o d s).2 =
      (.ok pm, (detectPackageManager o d s).2) := by
  cases hm : s.memo d with
  | some q =>
    simp only [detectPackageManager, hm] at h ⊢
    cases h
    simp [hm]
  | none =>
    simp only [detectPackageManager, hm] at h ⊢
    have := detectLoop_memo_eq o d supportedPMs s pm h
    simp [detectPackageManager, this]

/-- Witness for C4: under an all-success oracle the first detect call
returns the apt profile and the second is a pure memo hit. -/
theorem detectPackageManager_idem_witness :
    (detectPackageManager alwaysTrueOracle "Ubuntu-22.04" initState).1 = .ok aptPM ∧
    detectPackageManager alwaysTrueOracle "Ubuntu-22.04"
        (detectPackageManager alwaysTrueOracle "Ubuntu-22.04" initState).2 =
      (.ok aptPM, (detectPackageManager alwaysTrueOracle "Ubuntu-22.04" initState).2) := by
  have h1 : (detectPackageManager alwaysTrueOracle "Ubuntu-22.04" initState).1 = .ok aptPM := rfl
  exact ⟨h1, detectPackageManager_idem alwaysTrueOracle "Ubuntu-22.04" initState aptPM h1⟩

/-! ### C3 — benign-failure classification of the listing fallback -/

/-- `listContains` finds a pattern that is a prefix. -/
theorem listContains_of_isPrefixOf {s pat : List Char} (h : pat.isPrefixOf s = true) :
    listContains s pat = true := by
  rw [listContains.eq_def]
  simp [h]

/-- `listContains` is monotone under cons. -/
theorem listContains_cons (c : Char) {t pat : List Char}
    (h : listContains t pat = true) : listContains (c :: t) pat = true := by
  rw [listContains.eq_def]
  by_cases hp : pat.isPrefixOf (c :: t) = true
  · simp [hp]
  · simp only [Bool.not_eq_true] at hp
    simp [hp, h]

/-- `listContains` is monotone under prepending. -/
theorem listContains_append_left (a : List Char) {s pat : List Char}
    (h : listContains s pat = true) : listContains (a ++ s) pat = true := by
  induction a with
  | nil => exact h
  | cons c t ih => exact listContains_cons c ih

/-- A list finds itself as a pattern. -/
theorem listContains_self (pat : List Char) : listContains pat pat = true :=
  listContains_of_isPrefixOf (List.isPrefixOf_iff_prefix.mpr (List.prefix_refl pat))

/-- `listContains` finds a pattern occurring anywhere in an append. -/
theorem listContains_middle (a pat b : List Char) :
    listContains (a ++ pat ++ b) pat = true := by
  rw [List.append_assoc]
  exact listContains_append_left a
    (listContains_of_isPrefixOf (List.isPrefixOf_iff_prefix.mpr ⟨b, rfl⟩))

/-- C3: when both the verbose and the legacy listing commands fail, the
listing either returns the empty list with no error (when the combined
stderr/error text matches a benign sentinel) or a combined error whose
message references both failures. -/
theorem ListInstalledDistros_bothFail (r : Runner)
    (o1 s1 e1 o2 s2 e2 : String)
    (h1 : r "wsl.exe" ["-l", "-v"] = ⟨o1, s1, some e1⟩)
    (h2 : r "wsl.exe" ["-l"] = ⟨o2, s2, some e2⟩) :
    (benignMatch (String.intercalate "\n" [s1, s2, e1, e2]) = true →
      ListInstalledDistros r = .ok []) ∧
    (benignMatch (String.intercalate "\n" [s1, s2, e1, e2]) = false →
      ∃ msg, ListInstalledDistros r = .error msg ∧
        goContains msg e1 = true ∧ goContains msg e2 = true) := by
  constructor
  · intro hb
    simp [ListInstalledDistros, ListInstalledDistrosE, h1, h2, hb]
  · intro hb
    refine ⟨"failed to list WSL distributions: " ++ e1 ++ " | fallback: " ++ e2, ?_, ?_, ?_⟩
    · simp [ListInstalledDistros, ListInstalledDistrosE, h1, h2, hb]
    · show listContains _ _ = true
      have : ("failed to list WSL distributions: " ++ e1 ++ " | fallback: " ++ e2).data =
          "failed to list WSL distributions: ".data ++ e1.data ++
            (" | fallback: " ++ e2).data := by
        simp [String.append_assoc]
      rw [this]
      exact listContains_middle _ _ _
    · show listContains _ _ = true
      have : ("failed to list WSL distributions: " ++ e1 ++ " | fallback: " ++ e2).data =
          ("failed to list WSL distributions: " ++ e1 ++ " | fallback: ").data ++
            e2.data ++ [] := by
        simp
      rw [this]
      exact listContains_middle _ _ _

/-- Witness for C3: under a runner failing both listing commands with
the `0xffffffff` sentinel, the listing returns an empty list without
error. -/
theorem ListInstalledDistros_bothFail_witness :
    ListInstalledDistros benignRunner = .ok [] := by
  exact (ListInstalledDistros_bothFail benignRunner
    "" "Error: 0xffffffff" "exit status 0xffffffff"
    "" "Error: 0xffffffff" "exit status 0xffffffff" rfl rfl).1 (by decide)

/-! ### C9 — Import creates the install directory before the
AlreadyExists check -/

/-- C9: for every import whose name, install path and tar path are
non-empty, whose tar file exists and whose directory creation succeeds,
when the listing shows the name already registered, `Import` fails with
the already-exists error and its side-effect trace is exactly
stat-tar, create-install-directory, listing-call — the directory is
created before the existence check runs and no later event removes it,
so it remains after the failed call. -/
theorem Import_mkdirAll_before_existsCheck (r : Runner)
    (tarExists mkdirOk : String → Bool) (abs : String → String)
    (opts : ImportOptions) (out1 st1 : String)
    (hn : opts.name ≠ "") (hi : opts.installPath ≠ "") (ht : opts.tarFilePath ≠ "")
    (htar : tarExists opts.tarFilePath = true) (hmk : mkdirOk opts.installPath = true)
    (hrun : r "wsl.exe" ["-l", "-v"] = ⟨out1, st1, none⟩)
    (hexists : (parseWSLList out1).any (fun dd => dd.name = opts.name) = true) :
    Import r tarExists mkdirOk abs opts =
      (.error ("distribution '" ++ opts.name ++ "' already exists"),
       [.stat opts.tarFilePath, .mkdirAll opts.installPath,
        .run "wsl.exe" ["-l", "-v"]]) := by
  simp [Import, hn, hi, ht, htar, hmk, ListInstalledDistrosE, hrun, hexists]

/-- Witness for C9 at a concrete import colliding with the listed
`Ubuntu-22.04`. -/
theorem Import_mkdirAll_before_existsCheck_witness :
    Import listingRunner (fun _ => true) (fun _ => true) id
        ⟨"Ubuntu-22.04", "C:/wsl/ubuntu", "C:/images/ubuntu.tar", 0⟩ =
      (.error ("distribution '" ++ "Ubuntu-22.04" ++ "' already exists"),
       [.stat "C:/images/ubuntu.tar", .mkdirAll "C:/wsl/ubuntu",
        .run "wsl.exe" ["-l", "-v"]]) := by
  exact Import_mkdirAll_before_existsCheck listingRunner (fun _ => true) (fun _ => true) id
    ⟨"Ubuntu-22.04", "C:/wsl/ubuntu", "C:/images/ubuntu.tar", 0⟩ exampleListing ""
    (by decide) (by decide) (by decide) rfl rfl rfl (by decide)

/-! ### Engine trace lemmas (shared by C5, C6, C7) -/

/-- `substPercentS` on the apt template. -/
theorem substPercentS_apt (p : String) :
    substPercentS "sudo apt-get install -y %s" p = "sudo apt-get install -y " ++ p := by
  cases p with
  | mk pd => simp [substPercentS, substPercentSL]; rfl

/-- `substPercentS` on the dnf template. -/
theorem substPercentS_dnf (p : String) :
    substPercentS "sudo dnf install -y %s" p = "sudo dnf install -y " ++ p := by
  cases p with
  | mk pd => simp [substPercentS, substPercentSL]; rfl

/-- `substPercentS` on the yum template. -/
theorem substPercentS_yum (p : String) :
    substPercentS "sudo yum install -y %s" p = "sudo yum install -y " ++ p := by
  cases p with
  | mk pd => simp [substPercentS, substPercentSL]; rfl

/-- `substPercentS` on the zypper template. -/
theorem substPercentS_zypper (p : String) :
    substPercentS "sudo zypper --non-interactive install -y %s" p =
      "sudo zypper --non-interactive install -y " ++ p := by
  cases p with
  | mk pd => simp [substPercentS, substPercentSL]; rfl

/-- `substPercentS` on the pacman template. -/
theorem substPercentS_pacman (p : String) :
    substPercentS "sudo pacman -S --noconfirm %s" p = "sudo pacman -S --noconfirm " ++ p := by
  cases p with
  | mk pd => simp [substPercentS, substPercentSL]; rfl

/-- `substPercentS` on the apk template. -/
theorem substPercentS_apk (p : String) :
    substPercentS "sudo apk add %s" p = "sudo apk add " ++ p := by
  cases p with
  | mk pd => simp [substPercentS, substPercentSL]; rfl

/-- Two strings with different head characters differ, whatever follows. -/
theorem mk_cons_ne_append (c1 c2 : Char) (l1 l2 : List Char) (t : String)
    (h : c1 ≠ c2) : String.mk (c1 :: l1) ≠ (String.mk (c2 :: l2) ++ t) := by
  obtain ⟨td⟩ := t
  intro heq
  have h2 : c1 :: l1 = c2 :: (l2 ++ td) := congrArg String.data heq
  injection h2 with hh _
  exact h hh

/-- A command that does not start with `s` is never an install-command
instantiation (every registry install template starts with `sudo`). -/
theorem isInstallCmdFor_false_of_head (pkg : String) (k : CmdKind)
    (c1 : Char) (l1 : List Char) (h : c1 ≠ 's') :
    isInstallCmdFor pkg ⟨k, String.mk (c1 :: l1)⟩ = false := by
  rw [isInstallCmdFor, List.any_eq_false]
  intro pm hpm
  simp only [supportedPMs, List.mem_cons, List.not_mem_nil, or_false] at hpm
  rcases hpm with rfl | rfl | rfl | rfl | rfl | rfl
  · rw [show aptPM.installCmd = "sudo apt-get install -y %s" from rfl, substPercentS_apt]
    exact fun hd => mk_cons_ne_append c1 's' l1 "udo apt-get install -y ".data _ h
      (of_decide_eq_true hd)
  · rw [show dnfPM.installCmd = "sudo dnf install -y %s" from rfl, substPercentS_dnf]
    exact fun hd => mk_cons_ne_append c1 's' l1 "udo dnf install -y ".data _ h
      (of_decide_eq_true hd)
  · rw [show yumPM.installCmd = "sudo yum install -y %s" from rfl, substPercentS_yum]
    exact fun hd => mk_cons_ne_append c1 's' l1 "udo yum install -y ".data _ h
      (of_decide_eq_true hd)
  · rw [show zypperPM.installCmd = "sudo zypper --non-interactive install -y %s" from rfl,
      substPercentS_zypper]
    exact fun hd => mk_cons_ne_append c1 's' l1 "udo zypper --non-interactive install -y ".data _ h
      (of_decide_eq_true hd)
  · rw [show pacmanPM.installCmd = "sudo pacman -S --noconfirm %s" from rfl,
      substPercentS_pacman]
    exact fun hd => mk_cons_ne_append c1 's' l1 "udo pacman -S --noconfirm ".data _ h
      (of_decide_eq_true hd)
  · rw [show apkPM.installCmd = "sudo apk add %s" from rfl, substPercentS_apk]
    exact fun hd => mk_cons_ne_append c1 's' l1 "udo apk add ".data _ h
      (of_decide_eq_true hd)

/-- A presence probe `command -v <cmd>` is never an install command. -/
theorem isInstallCmdFor_false_commandV (pkg cn : String) (k : CmdKind) :
    isInstallCmdFor pkg ⟨k, "command -v " ++ cn⟩ = false := by
  obtain ⟨cd⟩ := cn
  exact isInstallCmdFor_false_of_head pkg k 'c' _ (by decide)

/-- The registry scan: trace extension, probe provenance, memo shape,
and result provenance. -/
theorem detectLoop_spec (o : Oracle) (d : String) :
    ∀ (pms : List PackageManager) (s : ExecState),
      ∃ δ, (detectLoop o d pms s).2.trace = s.trace ++ δ ∧
        (∀ e ∈ δ, e.kind = CmdKind.detection ∧ ∃ pm ∈ pms, e.cmd = pm.checkCmd) ∧
        ((detectLoop o d pms s).2.memo = s.memo ∨
          ∃ pm ∈ pms, (detectLoop o d pms s).2.memo =
            fun x => if x = d then some pm else s.memo x) ∧
        (∀ pm, (detectLoop o d pms s).1 = .ok pm → pm ∈ pms) := by
  intro pms
  induction pms with
  | nil =>
    intro s
    exact ⟨[], by simp [detectLoop], by simp, Or.inl rfl, by simp [detectLoop]⟩
  | cons q rest ih =>
    intro s
    simp only [detectLoop]
    cases hr : o s.counter d q.checkCmd with
    | true =>
      simp only [issue, hr, if_true]
      refine ⟨[⟨.detection, q.checkCmd⟩], rfl, ?_, ?_, ?_⟩
      · intro e he
        simp only [List.mem_singleton] at he
        exact ⟨by simp [he], q, by simp, by simp [he]⟩
      · exact Or.inr ⟨q, by simp, rfl⟩
      · intro pm hpm
        cases hpm
        simp
    | false =>
      simp only [issue, hr, Bool.false_eq_true, if_false]
      obtain ⟨δ, htr, hprov, hmemo, hres⟩ :=
        ih ⟨s.counter + 1, s.trace ++ [⟨.detection, q.checkCmd⟩], s.memo⟩
      refine ⟨⟨.detection, q.checkCmd⟩ :: δ, ?_, ?_, ?_, ?_⟩
      · rw [htr]; simp
      · intro e he
        rcases List.mem_cons.mp he with rfl | he'
        · exact ⟨rfl, q, by simp, rfl⟩
        · obtain ⟨hk, pm, hpm, hcmd⟩ := hprov e he'
          exact ⟨hk, pm, List.mem_cons_of_mem q hpm, hcmd⟩
      · rcases hmemo with hm | ⟨pm, hpm, hm⟩
        · exact Or.inl hm
        · exact Or.inr ⟨pm, List.mem_cons_of_mem q hpm, hm⟩
      · intro pm hpm
        exact List.mem_cons_of_mem q (hres pm hpm)

/-- `detectPackageManager`: trace extension, probe provenance,
well-formedness preservation, and result provenance. -/
theorem detectPackageManager_spec (o : Oracle) (d : String) (s : ExecState)
    (hwf : MemoWF s.memo) :
    ∃ δ, (detectPackageManager o d s).2.trace = s.trace ++ δ ∧
      (∀ e ∈ δ, e.kind = CmdKind.detection ∧ ∃ pm ∈ supportedPMs, e.cmd = pm.checkCmd) ∧
      MemoWF (detectPackageManager o d s).2.memo ∧
      (∀ pm, (detectPackageManager o d s).1 = .ok pm → pm ∈ supportedPMs) := by
  cases hm : s.memo d with
  | some q =>
    refine ⟨[], by simp [detectPackageManager, hm], by simp, ?_, ?_⟩
    · simpa [detectPackageManager, hm] using hwf
    · intro pm hpm
      simp only [detectPackageManager, hm] at hpm
      cases hpm
      exact hwf d _ hm
  | none =>
    obtain ⟨δ, htr, hprov, hmemo, hres⟩ := detectLoop_spec o d supportedPMs s
    refine ⟨δ, by simpa [detectPackageManager, hm] using htr,
      hprov, ?_, ?_⟩
    · simp only [detectPackageManager, hm]
      rcases hmemo with hm2 | ⟨pm, hpm, hm2⟩
      · rw [hm2]; exact hwf
      · rw [hm2]
        intro d' pm' hd'
        have hd2 : (if d' = d then some pm else s.memo d') = some pm' := hd'
        by_cases hdd : d' = d
        · rw [if_pos hdd] at hd2
          cases hd2
          exact hpm
        · rw [if_neg hdd] at hd2
          exact hwf d' pm' hd2
    · intro pm hpm
      simp only [detectPackageManager, hm] at hpm
      exact hres pm hpm

/-- `runWslSteps`: memo preservation, trace extension, and step
provenance. -/
theorem runWslSteps_spec (o : Oracle) (d : String) (wrap : String → String → String) :
    ∀ (steps : List String) (s : ExecState),
      (runWslSteps o d wrap steps s).2.memo = s.memo ∧
      ∃ δ, (runWslSteps o d wrap steps s).2.trace = s.trace ++ δ ∧
        ∀ e ∈ δ, e.kind = CmdKind.run ∧ e.cmd ∈ steps := by
  intro steps
  induction steps with
  | nil =>
    intro s
    exact ⟨rfl, [], by simp [runWslSteps], by simp⟩
  | cons c rest ih =>
    intro s
    cases hr : o s.counter d c with
    | true =>
      simp only [runWslSteps, runWslCommand, issue, hr, if_true]
      obtain ⟨hmemo, δ, htr, hprov⟩ :=
        ih ⟨s.counter + 1, s.trace ++ [⟨.run, c⟩], s.memo⟩
      refine ⟨hmemo, ⟨.run, c⟩ :: δ, by rw [htr]; simp, ?_⟩
      intro e he
      rcases List.mem_cons.mp he with rfl | he'
      · exact ⟨rfl, List.mem_cons_self c rest⟩
      · obtain ⟨hk, hc⟩ := hprov e he'
        exact ⟨hk, List.mem_cons_of_mem c hc⟩
    | false =>
      simp only [runWslSteps, runWslCommand, issue, hr, Bool.false_eq_true, if_false]
      refine ⟨by trivial, [⟨.run, c⟩], by trivial, ?_⟩
      intro e he
      simp only [List.mem_singleton] at he
      subst he
      exact ⟨rfl, List.mem_cons_self c rest⟩

/-- A registry detection probe is never an install command. -/
theorem isInstallCmdFor_false_checkCmd (pkg : String) (e : TraceEntry)
    (h : ∃ pm ∈ supportedPMs, e.cmd = pm.checkCmd) : isInstallCmdFor pkg e = false := by
  obtain ⟨pm, hpm, hcmd⟩ := h
  obtain ⟨ek, ec⟩ := e
  simp only at hcmd
  subst hcmd
  simp only [supportedPMs, List.mem_cons, List.not_mem_nil, or_false] at hpm
  rcases hpm with rfl | rfl | rfl | rfl | rfl | rfl
  · exact isInstallCmdFor_false_commandV pkg "apt-get" ek
  · exact isInstallCmdFor_false_commandV pkg "dnf" ek
  · exact isInstallCmdFor_false_commandV pkg "yum" ek
  · exact isInstallCmdFor_false_commandV pkg "zypper" ek
  · exact isInstallCmdFor_false_commandV pkg "pacman" ek
  · exact isInstallCmdFor_false_commandV pkg "apk" ek

/-- An Ansible post-install step is never an install command for the
`ansible` package itself. -/
theorem isInstallCmdFor_false_postInstall (e : TraceEntry)
    (h : ∃ pm ∈ supportedPMs, e.cmd ∈ pm.ansiblePostInstallCmds) :
    isInstallCmdFor "ansible" e = false := by
  obtain ⟨pm, hpm, hcmd⟩ := h
  obtain ⟨ek, ec⟩ := e
  simp only at hcmd
  simp only [supportedPMs, List.mem_cons, List.not_mem_nil, or_false] at hpm
  rcases hpm with rfl | rfl | rfl | rfl | rfl | rfl
  · simp [aptPM] at hcmd
  · simp [dnfPM] at hcmd
  · simp [yumPM] at hcmd
  · simp only [zypperPM, List.mem_cons, List.not_mem_nil, or_false] at hcmd
    rcases hcmd with rfl | rfl
    · exact (by decide : isInstallCmdFor "ansible"
        ⟨CmdKind.run, "sudo zypper --non-interactive install -y python3-dbus-python"⟩ = false)
    · exact (by decide : isInstallCmdFor "ansible"
        ⟨CmdKind.run, "ansible-galaxy collection install community.general --force"⟩ = false)
  · simp [pacmanPM] at hcmd
  · simp [apkPM] at hcmd

/-- One `ensurePackage` call for an already-satisfied package: the new
trace footprint contains exactly one presence probe and no install
command, and memo well-formedness is preserved. -/
theorem ensurePackage_satisfied_spec (o : Oracle) (d cn pkg : String) (s : ExecState)
    (hwf : MemoWF s.memo) (hp : o s.counter d ("command -v " ++ cn) = true) :
    ∃ δ, (ensurePackage o d cn pkg s).2.trace = s.trace ++ δ ∧
      δ.filter (fun e => e.kind = CmdKind.presence) =
        [⟨.presence, "command -v " ++ cn⟩] ∧
      (∀ e ∈ δ, isInstallCmdFor pkg e = false) ∧
      MemoWF (ensurePackage o d cn pkg s).2.memo := by
  simp only [ensurePackage, issue, hp, if_true]
  by_cases hpk : pkg = "ansible"
  · subst hpk
    simp only [if_pos]
    rcases hd : detectPackageManager o d
        ⟨s.counter + 1, s.trace ++ [⟨.presence, "command -v " ++ cn⟩], s.memo⟩
      with ⟨res, s0⟩
    obtain ⟨δd, htr, hprov, hwf2, hres⟩ := detectPackageManager_spec o d
      ⟨s.counter + 1, s.trace ++ [⟨.presence, "command -v " ++ cn⟩], s.memo⟩ hwf
    rw [hd] at htr hwf2 hres
    simp only at htr hwf2 hres
    have hδd : ∀ e ∈ δd, e.kind = CmdKind.detection ∧
        ∃ pm ∈ supportedPMs, e.cmd = pm.checkCmd := hprov
    cases res with
    | error e =>
      refine ⟨⟨.presence, "command -v " ++ cn⟩ :: δd, ?_, ?_, ?_, ?_⟩
      · simp only [hd]
        rw [htr]; simp
      · simp only [List.filter_cons]
        rw [if_pos (by simp)]
        have : δd.filter (fun e => decide (e.kind = CmdKind.presence)) = [] := by
          rw [List.filter_eq_nil_iff]
          intro a ha
          simp [(hδd a ha).1]
        rw [this]
      · intro e he
        rcases List.mem_cons.mp he with rfl | he'
        · exact isInstallCmdFor_false_commandV _ cn _
        · exact isInstallCmdFor_false_checkCmd _ e (hδd e he').2
      · simpa only [hd] using hwf2
    | ok pm =>
      have hpmem : pm ∈ supportedPMs := hres pm rfl
      have hpost : ∀ (δs : List TraceEntry), (∀ e ∈ δs, e.kind = CmdKind.run ∧
          e.cmd ∈ pm.ansiblePostInstallCmds) →
          ∀ e ∈ δs, isInstallCmdFor "ansible" e = false := by
        intro δs hδs e he
        exact isInstallCmdFor_false_postInstall e ⟨pm, hpmem, (hδs e he).2⟩
      simp only [hd]
      by_cases hlen : pm.ansiblePostInstallCmds.length > 0
      · rw [if_pos hlen]
        by_cases hz : pm.name = "zypper"
        · rw [if_pos hz]
          cases hc : o s0.counter d "ansible-galaxy collection list | grep -q community.general" with
          | true =>
            simp only [issue, hc, Bool.not_true, Bool.false_eq_true, if_false]
            refine ⟨⟨.presence, "command -v " ++ cn⟩ :: (δd ++
              [⟨.collection, "ansible-galaxy collection list | grep -q community.general"⟩]),
              ?_, ?_, ?_, ?_⟩
            · rw [htr]
              simp
            · simp only [List.filter_cons, List.filter_append]
              rw [if_pos (by simp)]
              have h1 : δd.filter (fun e => decide (e.kind = CmdKind.presence)) = [] := by
                rw [List.filter_eq_nil_iff]
                intro a ha
                simp [(hδd a ha).1]
              rw [h1]
              rfl
            · intro e he
              rcases List.mem_cons.mp he with rfl | he'
              · exact isInstallCmdFor_false_commandV _ cn _
              · rcases List.mem_append.mp he' with hd2 | hcoll
                · exact isInstallCmdFor_false_checkCmd _ e (hδd e hd2).2
                · simp only [List.mem_singleton] at hcoll
                  subst hcoll
                  decide
            · exact hwf2
          | false =>
            simp only [issue, hc, Bool.not_false, if_true]
            obtain ⟨hmemo3, δs, htr3, hprov3⟩ := runWslSteps_spec o d wrapPost
              pm.ansiblePostInstallCmds
              ⟨s0.counter + 1, s0.trace ++
                [⟨.collection, "ansible-galaxy collection list | grep -q community.general"⟩],
                s0.memo⟩
            refine ⟨⟨.presence, "command -v " ++ cn⟩ :: (δd ++
              ⟨.collection, "ansible-galaxy collection list | grep -q community.general"⟩ :: δs),
              ?_, ?_, ?_, ?_⟩
            · rw [htr3]
              rw [htr]
              simp
            · simp only [List.filter_cons, List.filter_append]
              rw [if_pos (by simp)]
              have h1 : δd.filter (fun e => decide (e.kind = CmdKind.presence)) = [] := by
                rw [List.filter_eq_nil_iff]
                intro a ha
                simp [(hδd a ha).1]
              have h2 : δs.filter (fun e => decide (e.kind = CmdKind.presence)) = [] := by
                rw [List.filter_eq_nil_iff]
                intro a ha
                simp [(hprov3 a ha).1]
              rw [h1]
              rw [if_neg (by simp)]
              rw [h2]
              rfl
            · intro e he
              rcases List.mem_cons.mp he with rfl | he'
              · exact isInstallCmdFor_false_commandV _ cn _
              · rcases List.mem_append.mp he' with hd2 | hcoll
                · exact isInstallCmdFor_false_checkCmd _ e (hδd e hd2).2
                · rcases List.mem_cons.mp hcoll with rfl | hs
                  · decide
                  · exact hpost δs hprov3 e hs
            · rw [hmemo3]
              exact hwf2
        · rw [if_neg hz]
          refine ⟨⟨.presence, "command -v " ++ cn⟩ :: δd, ?_, ?_, ?_, ?_⟩
          · rw [htr]; simp
          · simp only [List.filter_cons]
            rw [if_pos (by simp)]
            have : δd.filter (fun e => decide (e.kind = CmdKind.presence)) = [] := by
              rw [List.filter_eq_nil_iff]
              intro a ha
              simp [(hδd a ha).1]
            rw [this]
          · intro e he
            rcases List.mem_cons.mp he with rfl | he'
            · exact isInstallCmdFor_false_commandV _ cn _
            · exact isInstallCmdFor_false_checkCmd _ e (hδd e he').2
          · exact hwf2
      · rw [if_neg hlen]
        refine ⟨⟨.presence, "command -v " ++ cn⟩ :: δd, ?_, ?_, ?_, ?_⟩
        · rw [htr]; simp
        · simp only [List.filter_cons]
          rw [if_pos (by simp)]
          have : δd.filter (fun e => decide (e.kind = CmdKind.presence)) = [] := by
            rw [List.filter_eq_nil_iff]
            intro a ha
            simp [(hδd a ha).1]
          rw [this]
        · intro e he
          rcases List.mem_cons.mp he with rfl | he'
          · exact isInstallCmdFor_false_commandV _ cn _
          · exact isInstallCmdFor_false_checkCmd _ e (hδd e he').2
        · exact hwf2
  · rw [if_neg hpk]
    refine ⟨[⟨.presence, "command -v " ++ cn⟩], rfl, ?_, ?_, hwf⟩
    · simp
    · intro e he
      simp only [List.mem_singleton] at he
      subst he
      exact isInstallCmdFor_false_commandV _ cn _

/-- C6: two successive `ensurePackage` calls for an already-satisfied
package (the presence probe succeeds throughout) each add exactly one
presence probe to the command trace and issue zero install commands on
either call — no reinstall ever occurs. -/
theorem ensurePackage_alreadySatisfied_idem (o : Oracle) (d cn pkg : String)
    (s : ExecState) (hwf : MemoWF s.memo)
    (hprobe : ∀ n, o n d ("command -v " ++ cn) = true) :
    ∃ δ1 δ2,
      (ensurePackage o d cn pkg s).2.trace = s.trace ++ δ1 ∧
      (ensurePackage o d cn pkg (ensurePackage o d cn pkg s).2).2.trace =
        (ensurePackage o d cn pkg s).2.trace ++ δ2 ∧
      δ1.filter (fun e => e.kind = CmdKind.presence) =
        [⟨.presence, "command -v " ++ cn⟩] ∧
      δ2.filter (fun e => e.kind = CmdKind.presence) =
        [⟨.presence, "command -v " ++ cn⟩] ∧
      (∀ e ∈ δ1, isInstallCmdFor pkg e = false) ∧
      (∀ e ∈ δ2, isInstallCmdFor pkg e = false) := by
  obtain ⟨δ1, h1, hf1, hi1, hwf1⟩ :=
    ensurePackage_satisfied_spec o d cn pkg s hwf (hprobe _)
  obtain ⟨δ2, h2, hf2, hi2, _⟩ :=
    ensurePackage_satisfied_spec o d cn pkg (ensurePackage o d cn pkg s).2 hwf1 (hprobe _)
  exact ⟨δ1, δ2, h1, h2, hf1, hf2, hi1, hi2⟩

/-- Witness for C6 at a concrete already-satisfied package. -/
theorem ensurePackage_alreadySatisfied_idem_witness :
    ∃ δ1 δ2,
      (ensurePackage alwaysTrueOracle "Debian" "git" "git" initState).2.trace =
        initState.trace ++ δ1 ∧
      (ensurePackage alwaysTrueOracle "Debian" "git" "git"
          (ensurePackage alwaysTrueOracle "Debian" "git" "git" initState).2).2.trace =
        (ensurePackage alwaysTrueOracle "Debian" "git" "git" initState).2.trace ++ δ2 ∧
      δ1.filter (fun e => e.kind = CmdKind.presence) =
        [⟨.presence, "command -v " ++ "git"⟩] ∧
      δ2.filter (fun e => e.kind = CmdKind.presence) =
        [⟨.presence, "command -v " ++ "git"⟩] ∧
      (∀ e ∈ δ1, isInstallCmdFor "git" e = false) ∧
      (∀ e ∈ δ2, isInstallCmdFor "git" e = false) := by
  exact ensurePackage_alreadySatisfied_idem alwaysTrueOracle "Debian" "git" "git"
    initState (fun d pm h => by simp [initState] at h) (fun n => rfl)

/-! ### C5 — command order of the fresh-install scenario -/

/-- Counterexample to C5 as stated: in the `ensurePackage(guest, git,
git)` scenario (presence probe fails, apt detected, non-Kali, everything
else succeeds), the commands run in the guest are update, then the
pre-install step, then the install — not pre-install before update as
the claim orders them. -/
theorem ensurePackage_git_order_counterexample :
    ((ensurePackage gitAptOracle "Debian" "git" "git" initState).2.trace.filter
        (fun e => e.kind = CmdKind.run)).map TraceEntry.cmd =
      ["sudo apt-get update", "sudo apt-get install -y python3-apt",
       "sudo apt-get install -y git"] ∧
    ¬ (((ensurePackage gitAptOracle "Debian" "git" "git" initState).2.trace.filter
        (fun e => e.kind = CmdKind.run)).map TraceEntry.cmd =
      ["sudo apt-get install -y python3-apt", "sudo apt-get update",
       "sudo apt-get install -y git"]) := by
  exact ⟨rfl, by decide⟩

/-- C5 (amended): in the `ensurePackage(guest, "git", "git")` scenario —
presence probe fails, the Debian-family (apt) profile is detected (here
via the memo), the guest is not Kali, and update and pre-install
succeed — the issued commands are exactly one package-index update, one
pre-install sequence, and one install command with substituted package
name `git`, in that order: update, then pre-install, then install. -/
theorem ensurePackage_git_apt_order (o : Oracle) (d : String) (s : ExecState)
    (hmemo : s.memo d = some aptPM)
    (h0 : o s.counter d "command -v git" = false)
    (h1 : o (s.counter + 1) d "grep -i kali /etc/os-release" = false)
    (h2 : o (s.counter + 2) d "grep -i kali /etc/os-release" = false)
    (h3 : o (s.counter + 3) d "sudo apt-get update" = true)
    (h4 : o (s.counter + 4) d "sudo apt-get install -y python3-apt" = true) :
    (ensurePackage o d "git" "git" s).2.trace = s.trace ++
      [⟨.presence, "command -v git"⟩,
       ⟨.grepKali, "grep -i kali /etc/os-release"⟩,
       ⟨.grepKali, "grep -i kali /etc/os-release"⟩,
       ⟨.run, "sudo apt-get update"⟩,
       ⟨.run, "sudo apt-get install -y python3-apt"⟩,
       ⟨.run, "sudo apt-get install -y git"⟩] := by
  have h0' : o s.counter d ("command -v " ++ "git") = false := h0
  have h1' : o (s.counter + 1) d "grep -i kali /etc/os-release" = false := h1
  have h2' : o (s.counter + 1 + 1) d "grep -i kali /etc/os-release" = false := h2
  have h3' : o (s.counter + 1 + 1 + 1) d "sudo apt-get update" = true := h3
  have h4' : o (s.counter + 1 + 1 + 1 + 1) d "sudo apt-get install -y python3-apt" = true := h4
  have hname : aptPM.name = "apt" := rfl
  have hupd : aptPM.updateCmd = "sudo apt-get update" := rfl
  have hpre : aptPM.preInstallSteps = ["sudo apt-get install -y python3-apt"] := rfl
  have hcore : aptPM.isAnsibleCore = false := rfl
  simp only [ensurePackage, issue, h0', Bool.false_eq_true, if_false,
    detectPackageManager, hmemo, hname, if_true, fixKaliRepositories, h1',
    Bool.not_false, runWslCommand, h2', hupd, h3', if_pos,
    InstallPackage, runWslSteps, hpre, h4', hcore, Bool.and_false]
  cases h5 : o (s.counter + 1 + 1 + 1 + 1 + 1) d (substPercentS aptPM.installCmd "git") with
  | true =>
    simp only [h5, if_true]
    simp [List.append_assoc, substPercentS_apt]
    rfl
  | false =>
    simp only [h5, Bool.false_eq_true, if_false]
    simp [List.append_assoc, substPercentS_apt]
    rfl

/-- Witness for the amended C5 at the concrete scenario oracle. -/
theorem ensurePackage_git_apt_order_witness :
    (ensurePackage gitAptOracle "Debian" "git" "git" aptMemoState).2.trace =
      aptMemoState.trace ++
      [⟨.presence, "command -v git"⟩,
       ⟨.grepKali, "grep -i kali /etc/os-release"⟩,
       ⟨.grepKali, "grep -i kali /etc/os-release"⟩,
       ⟨.run, "sudo apt-get update"⟩,
       ⟨.run, "sudo apt-get install -y python3-apt"⟩,
       ⟨.run, "sudo apt-get install -y git"⟩] := by
  exact ensurePackage_git_apt_order gitAptOracle "Debian" aptMemoState
    rfl rfl rfl rfl rfl rfl

/-! ### C7 — exactly one corrective action and one update retry -/

/-- Evaluation of the retry-fails path: after the failed update, one
corrective action and one retry are issued and `ensurePackage` stops
with a hard error. -/
theorem ensurePackage_retryFail_eval (o : Oracle) (d : String) (s : ExecState)
    (hmemo : s.memo d = some aptPM)
    (h0 : o s.counter d "command -v git" = false)
    (h1 : o (s.counter + 1) d "grep -i kali /etc/os-release" = false)
    (h2 : o (s.counter + 2) d "grep -i kali /etc/os-release" = false)
    (h3 : o (s.counter + 3) d "sudo apt-get update" = false)
    (h5 : o (s.counter + 5) d "sudo apt-get update" = false) :
    ensurePackage o d "git" "git" s =
      (.error ("apt-get update failed even after attempting to fix broken sources: " ++
         ("command '" ++ "sudo apt-get update" ++ "' failed")),
       ⟨s.counter + 6,
        s.trace ++
          [⟨.presence, "command -v git"⟩,
           ⟨.grepKali, "grep -i kali /etc/os-release"⟩,
           ⟨.grepKali, "grep -i kali /etc/os-release"⟩,
           ⟨.run, "sudo apt-get update"⟩,
           ⟨.run, aptFixSourcesCmd⟩,
           ⟨.run, "sudo apt-get update"⟩],
        s.memo⟩) := by
  have h0' : o s.counter d ("command -v " ++ "git") = false := h0
  have h1' : o (s.counter + 1) d "grep -i kali /etc/os-release" = false := h1
  have h2' : o (s.counter + 1 + 1) d "grep -i kali /etc/os-release" = false := h2
  have h3' : o (s.counter + 1 + 1 + 1) d "sudo apt-get update" = false := h3
  have h5' : o (s.counter + 1 + 1 + 1 + 1 + 1) d "sudo apt-get update" = false := h5
  have hname : aptPM.name = "apt" := rfl
  have hupd : aptPM.updateCmd = "sudo apt-get update" := rfl
  simp only [ensurePackage, issue, h0', Bool.false_eq_true, if_false,
    detectPackageManager, hmemo, hname, if_true, fixKaliRepositories, h1',
    Bool.not_false, runWslCommand, h2', hupd, h3', h5']
  simp [List.append_assoc]

/-- Evaluation of the retry-succeeds path: after the failed update, one
corrective action and one retry are issued and the flow proceeds to
installation (pre-install step, then install command). -/
theorem ensurePackage_retrySucceed_trace (o : Oracle) (d : String) (s : ExecState)
    (hmemo : s.memo d = some aptPM)
    (h0 : o s.counter d "command -v git" = false)
    (h1 : o (s.counter + 1) d "grep -i kali /etc/os-release" = false)
    (h2 : o (s.counter + 2) d "grep -i kali /etc/os-release" = false)
    (h3 : o (s.counter + 3) d "sudo apt-get update" = false)
    (h5 : o (s.counter + 5) d "sudo apt-get update" = true)
    (h6 : o (s.counter + 6) d "sudo apt-get install -y python3-apt" = true) :
    (ensurePackage o d "git" "git" s).2.trace = s.trace ++
      [⟨.presence, "command -v git"⟩,
       ⟨.grepKali, "grep -i kali /etc/os-release"⟩,
       ⟨.grepKali, "grep -i kali /etc/os-release"⟩,
       ⟨.run, "sudo apt-get update"⟩,
       ⟨.run, aptFixSourcesCmd⟩,
       ⟨.run, "sudo apt-get update"⟩,
       ⟨.run, "sudo apt-get install -y python3-apt"⟩,
       ⟨.run, "sudo apt-get install -y git"⟩] := by
  have h0' : o s.counter d ("command -v " ++ "git") = false := h0
  have h1' : o (s.counter + 1) d "grep -i kali /etc/os-release" = false := h1
  have h2' : o (s.counter + 1 + 1) d "grep -i kali /etc/os-release" = false := h2
  have h3' : o (s.counter + 1 + 1 + 1) d "sudo apt-get update" = false := h3
  have h5' : o (s.counter + 1 + 1 + 1 + 1 + 1) d "sudo apt-get update" = true := h5
  have h6' : o (s.counter + 1 + 1 + 1 + 1 + 1 + 1) d
      "sudo apt-get install -y python3-apt" = true := h6
  have hname : aptPM.name = "apt" := rfl
  have hupd : aptPM.updateCmd = "sudo apt-get update" := rfl
  have hpre : aptPM.preInstallSteps = ["sudo apt-get install -y python3-apt"] := rfl
  have hcore : aptPM.isAnsibleCore = false := rfl
  simp only [ensurePackage, issue, h0', Bool.false_eq_true, if_false,
    detectPackageManager, hmemo, hname, if_true, fixKaliRepositories, h1',
    Bool.not_false, runWslCommand, h2', hupd, h3', h5',
    InstallPackage, runWslSteps, hpre, h6', hcore, Bool.and_false]
  cases h7 : o (s.counter + 1 + 1 + 1 + 1 + 1 + 1 + 1) d
      (substPercentS aptPM.installCmd "git") with
  | true =>
    simp only [h7, if_true]
    simp [List.append_assoc, substPercentS_apt]
    rfl
  | false =>
    simp only [h7, Bool.false_eq_true, if_false]
    simp [List.append_assoc, substPercentS_apt]
    rfl

/-- C7: when the apt package-index update fails inside `ensurePackage`
(presence probe failed, apt detected, non-Kali), exactly one corrective
action (stripping known-bad source entries) is applied and the update is
reissued exactly once; if the retry succeeds the flow proceeds to
installation (pre-install then install are issued), and if the retry
also fails `ensurePackage` fails hard with no further commands. -/
theorem ensurePackage_update_retry (o : Oracle) (d : String) (s : ExecState)
    (hmemo : s.memo d = some aptPM)
    (h0 : o s.counter d "command -v git" = false)
    (h1 : o (s.counter + 1) d "grep -i kali /etc/os-release" = false)
    (h2 : o (s.counter + 2) d "grep -i kali /etc/os-release" = false)
    (h3 : o (s.counter + 3) d "sudo apt-get update" = false)
    (h6 : o (s.counter + 6) d "sudo apt-get install -y python3-apt" = true) :
    (o (s.counter + 5) d "sudo apt-get update" = false →
      (∃ e, (ensurePackage o d "git" "git" s).1 = .error e) ∧
      (ensurePackage o d "git" "git" s).2.trace = s.trace ++
        [⟨.presence, "command -v git"⟩,
         ⟨.grepKali, "grep -i kali /etc/os-release"⟩,
         ⟨.grepKali, "grep -i kali /etc/os-release"⟩,
         ⟨.run, "sudo apt-get update"⟩,
         ⟨.run, aptFixSourcesCmd⟩,
         ⟨.run, "sudo apt-get update"⟩]) ∧
    (o (s.counter + 5) d "sudo apt-get update" = true →
      (ensurePackage o d "git" "git" s).2.trace = s.trace ++
        [⟨.presence, "command -v git"⟩,
         ⟨.grepKali, "grep -i kali /etc/os-release"⟩,
         ⟨.grepKali, "grep -i kali /etc/os-release"⟩,
         ⟨.run, "sudo apt-get update"⟩,
         ⟨.run, aptFixSourcesCmd⟩,
         ⟨.run, "sudo apt-get update"⟩,
         ⟨.run, "sudo apt-get install -y python3-apt"⟩,
         ⟨.run, "sudo apt-get install -y git"⟩]) ∧
    ((ensurePackage o d "git" "git" s).2.trace.drop s.trace.length).count
        ⟨.run, "sudo apt-get update"⟩ = 2 ∧
    ((ensurePackage o d "git" "git" s).2.trace.drop s.trace.length).count
        ⟨.run, aptFixSourcesCmd⟩ = 1 := by
  cases h5 : o (s.counter + 5) d "sudo apt-get update" with
  | false =>
    have heval := ensurePackage_retryFail_eval o d s hmemo h0 h1 h2 h3 h5
    refine ⟨?_, ?_, ?_, ?_⟩
    · intro _
      exact ⟨⟨_, by rw [heval]⟩, by rw [heval]⟩
    · intro htrue
      exact absurd htrue (by simp [h5])
    · rw [heval]
      show List.count _ (List.drop s.trace.length (s.trace ++ _)) = 2
      rw [List.drop_left]
      decide
    · rw [heval]
      show List.count _ (List.drop s.trace.length (s.trace ++ _)) = 1
      rw [List.drop_left]
      decide
  | true =>
    have htr := ensurePackage_retrySucceed_trace o d s hmemo h0 h1 h2 h3 h5 h6
    refine ⟨?_, ?_, ?_, ?_⟩
    · intro hfalse
      exact absurd hfalse (by simp [h5])
    · intro _
      exact htr
    · rw [htr, List.drop_left]
      decide
    · rw [htr, List.drop_left]
      decide

/-- Witness for C7 at the concrete retry-succeeds scenario oracle. -/
theorem ensurePackage_update_retry_witness :
    (ensurePackage retryOracle "Debian" "git" "git" aptMemoState).2.trace =
      aptMemoState.trace ++
      [⟨.presence, "command -v git"⟩,
       ⟨.grepKali, "grep -i kali /etc/os-release"⟩,
       ⟨.grepKali, "grep -i kali /etc/os-release"⟩,
       ⟨.run, "sudo apt-get update"⟩,
       ⟨.run, aptFixSourcesCmd⟩,
       ⟨.run, "sudo apt-get update"⟩,
       ⟨.run, "sudo apt-get install -y python3-apt"⟩,
       ⟨.run, "sudo apt-get install -y git"⟩] := by
  exact ((ensurePackage_update_retry retryOracle "Debian" aptMemoState
    rfl rfl rfl rfl rfl rfl).2.1) rfl

/-! ### C2 — the verbose listing parser on well-formed data lines -/

/-- Code points of the Go Unicode space class. -/
theorem unicodeSpace_toNat (c : Char) (h : isGoUnicodeSpace c = true) :
    c.toNat = 9 ∨ c.toNat = 10 ∨ c.toNat = 11 ∨ c.toNat = 12 ∨ c.toNat = 13 ∨
    c.toNat = 32 ∨ c.toNat = 0x85 ∨ c.toNat = 0xA0 ∨ c.toNat = 0x1680 ∨
    (0x2000 ≤ c.toNat ∧ c.toNat ≤ 0x200A) ∨ c.toNat = 0x2028 ∨ c.toNat = 0x2029 ∨
    c.toNat = 0x202F ∨ c.toNat = 0x205F ∨ c.toNat = 0x3000 := by
  simp only [isGoUnicodeSpace, Bool.or_eq_true, Bool.and_eq_true, decide_eq_true_eq] at h
  rcases h with
    (((((((((((((rfl | rfl) | rfl) | rfl) | rfl) | rfl) | rfl) | rfl) | rfl) |
      hr) | rfl) | rfl) | rfl) | rfl) | rfl <;>
    first
      | decide
      | omega

/-- A word character (regexp `\w`) is never a Go Unicode space. -/
theorem wordChar_not_unicodeSpace (c : Char) (h : isWordChar c = true) :
    isGoUnicodeSpace c = false := by
  cases hu : isGoUnicodeSpace c with
  | false => rfl
  | true =>
    exfalso
    have hb := unicodeSpace_toNat c hu
    simp only [isWordChar, Bool.or_eq_true, Bool.and_eq_true, decide_eq_true_eq] at h
    have hw : (97 ≤ c.toNat ∧ c.toNat ≤ 122) ∨ (65 ≤ c.toNat ∧ c.toNat ≤ 90) ∨
        (48 ≤ c.toNat ∧ c.toNat ≤ 57) ∨ c.toNat = 95 := by
      rcases h with ((h | h) | h) | rfl
      · exact Or.inl h
      · exact Or.inr (Or.inl h)
      · exact Or.inr (Or.inr (Or.inl h))
      · exact Or.inr (Or.inr (Or.inr rfl))
    omega

/-- A digit is a word character. -/
theorem digit_isWordChar (c : Char) (h : isDigitChar c = true) : isWordChar c = true := by
  simp only [isDigitChar, Bool.and_eq_true, decide_eq_true_eq] at h
  simp only [isWordChar, Bool.or_eq_true, Bool.and_eq_true, decide_eq_true_eq]
  exact Or.inl (Or.inr h)

/-- A Go regexp space is one of five concrete characters. -/
theorem goSpace_cases (c : Char) (h : isGoSpace c = true) :
    c = ' ' ∨ c = '\t' ∨ c = '\n' ∨ c = Char.ofNat 12 ∨ c = '\r' := by
  simp only [isGoSpace, Bool.or_eq_true, decide_eq_true_eq] at h
  tauto

/-- A Go regexp space is a Go Unicode space. -/
theorem goSpace_unicodeSpace (c : Char) (h : isGoSpace c = true) :
    isGoUnicodeSpace c = true := by
  rcases goSpace_cases c h with rfl | rfl | rfl | rfl | rfl <;> rfl

/-- A Go regexp space is not a word character. -/
theorem goSpace_not_wordChar (c : Char) (h : isGoSpace c = true) :
    isWordChar c = false := by
  rcases goSpace_cases c h with rfl | rfl | rfl | rfl | rfl <;> rfl

/-- A Go regexp space is not a digit. -/
theorem goSpace_not_digit (c : Char) (h : isGoSpace c = true) :
    isDigitChar c = false := by
  rcases goSpace_cases c h with rfl | rfl | rfl | rfl | rfl <;> rfl

/-- A character that is not a Unicode space is not a regexp space. -/
theorem not_unicodeSpace_not_goSpace (c : Char) (h : isGoUnicodeSpace c = false) :
    isGoSpace c = false := by
  cases hg : isGoSpace c with
  | false => rfl
  | true => rw [goSpace_unicodeSpace c hg] at h; cases h

/-- A word character is not a regexp space. -/
theorem wordChar_not_goSpace (c : Char) (h : isWordChar c = true) :
    isGoSpace c = false :=
  not_unicodeSpace_not_goSpace c (wordChar_not_unicodeSpace c h)

/-- A digit is not a regexp space. -/
theorem digit_not_goSpace (c : Char) (h : isDigitChar c = true) :
    isGoSpace c = false :=
  wordChar_not_goSpace c (digit_isWordChar c h)

/-- `dropWhile` is the identity when the head fails the predicate. -/
theorem dropWhile_eq_self_of_head {p : Char → Bool} (l : List Char)
    (h : ∀ c, l.head? = some c → p c = false) : l.dropWhile p = l := by
  cases l with
  | nil => rfl
  | cons c t =>
    rw [List.dropWhile_cons, if_neg]
    rw [h c rfl]
    simp

/-- `trimGoL` strips exactly the Unicode-space padding when the
non-empty core is delimited by non-space characters. -/
theorem trimGoL_padded (pad0 core pad1 : List Char) (hne : core ≠ [])
    (hp0 : ∀ c ∈ pad0, isGoUnicodeSpace c = true)
    (hp1 : ∀ c ∈ pad1, isGoUnicodeSpace c = true)
    (hhead : ∀ c, core.head? = some c → isGoUnicodeSpace c = false)
    (hlast : ∀ c, core.getLast? = some c → isGoUnicodeSpace c = false) :
    trimGoL (pad0 ++ core ++ pad1) = core := by
  unfold trimGoL
  rw [List.append_assoc, List.dropWhile_append_of_pos hp0]
  obtain ⟨a, t, rfl⟩ : ∃ a t, core = a :: t := by
    cases core with
    | nil => exact absurd rfl hne
    | cons a t => exact ⟨a, t, rfl⟩
  have h1 : ((a :: t) ++ pad1).dropWhile isGoUnicodeSpace = (a :: t) ++ pad1 := by
    apply dropWhile_eq_self_of_head
    intro c hc
    simp only [List.cons_append, List.head?_cons, Option.some.injEq] at hc
    subst hc
    exact hhead _ rfl
  rw [h1, List.reverse_append]
  rw [List.dropWhile_append_of_pos (fun x hx => hp1 x (List.mem_reverse.mp hx))]
  have h2 : (a :: t).reverse.dropWhile isGoUnicodeSpace = (a :: t).reverse := by
    apply dropWhile_eq_self_of_head
    intro c hc
    rw [List.head?_reverse] at hc
    exact hlast c hc
  rw [h2, List.reverse_reverse]

/-- `takeWhile`/`dropWhile` cut exactly at the first failing element. -/
theorem takeWhile_middle {p : Char → Bool} (xs : List Char) (y : Char) (ys : List Char)
    (hx : ∀ c ∈ xs, p c = true) (hy : p y = false) :
    (xs ++ y :: ys).takeWhile p = xs ∧ (xs ++ y :: ys).dropWhile p = y :: ys := by
  constructor
  · rw [List.takeWhile_append_of_pos hx, List.takeWhile_cons, if_neg (by simp [hy])]
    simp
  · rw [List.dropWhile_append_of_pos hx, List.dropWhile_cons, if_neg (by simp [hy])]

/-- `trimGoL` is the identity on lists without Unicode spaces. -/
theorem trimGoL_id (l : List Char) (h : ∀ c ∈ l, isGoUnicodeSpace c = false) :
    trimGoL l = l := by
  cases l with
  | nil => rfl
  | cons a t =>
    have := trimGoL_padded [] (a :: t) [] (by simp) (by simp) (by simp)
      (fun c hc => by
        simp only [List.head?_cons, Option.some.injEq] at hc
        subst hc
        exact h _ (by simp))
      (fun c hc => h c (List.mem_of_mem_getLast? hc))
    simpa using this

/-- `parseCore` on a well-shaped tail `name  state  version`. -/
theorem parseCore_shaped (nameF ws1 stateF ws2 verF : List Char)
    (hn : nameF ≠ []) (hnu : ∀ c ∈ nameF, isGoUnicodeSpace c = false)
    (hw1ne : ws1 ≠ []) (hw1 : ∀ c ∈ ws1, isGoSpace c = true)
    (hsne : stateF ≠ []) (hsw : ∀ c ∈ stateF, isWordChar c = true)
    (hw2ne : ws2 ≠ []) (hw2 : ∀ c ∈ ws2, isGoSpace c = true)
    (hvne : verF ≠ []) (hvd : ∀ c ∈ verF, isDigitChar c = true) :
    parseCore (nameF ++ (ws1 ++ (stateF ++ (ws2 ++ verF)))) =
      some (nameF, stateF, verF) := by
  obtain ⟨w1, ws1t, rfl⟩ : ∃ a t, ws1 = a :: t := by
    cases ws1 with
    | nil => exact absurd rfl hw1ne
    | cons a t => exact ⟨a, t, rfl⟩
  obtain ⟨st, stt, rfl⟩ : ∃ a t, stateF = a :: t := by
    cases stateF with
    | nil => exact absurd rfl hsne
    | cons a t => exact ⟨a, t, rfl⟩
  obtain ⟨w2, ws2t, rfl⟩ : ∃ a t, ws2 = a :: t := by
    cases ws2 with
    | nil => exact absurd rfl hw2ne
    | cons a t => exact ⟨a, t, rfl⟩
  obtain ⟨v, vt, rfl⟩ : ∃ a t, verF = a :: t := by
    cases verF with
    | nil => exact absurd rfl hvne
    | cons a t => exact ⟨a, t, rfl⟩
  have e1 : (nameF ++ ((w1 :: ws1t) ++ ((st :: stt) ++ ((w2 :: ws2t) ++ (v :: vt))))).takeWhile
      (fun c => !isGoSpace c) = nameF :=
    (takeWhile_middle nameF w1 (ws1t ++ ((st :: stt) ++ ((w2 :: ws2t) ++ (v :: vt))))
      (fun c hc => by rw [not_unicodeSpace_not_goSpace c (hnu c hc)]; rfl)
      (by rw [hw1 w1 (by simp), Bool.not_true])).1
  have e1' : (nameF ++ ((w1 :: ws1t) ++ ((st :: stt) ++ ((w2 :: ws2t) ++ (v :: vt))))).dropWhile
      (fun c => !isGoSpace c) = (w1 :: ws1t) ++ ((st :: stt) ++ ((w2 :: ws2t) ++ (v :: vt))) :=
    (takeWhile_middle nameF w1 (ws1t ++ ((st :: stt) ++ ((w2 :: ws2t) ++ (v :: vt))))
      (fun c hc => by rw [not_unicodeSpace_not_goSpace c (hnu c hc)]; rfl)
      (by rw [hw1 w1 (by simp), Bool.not_true])).2
  have e2 : ((w1 :: ws1t) ++ ((st :: stt) ++ ((w2 :: ws2t) ++ (v :: vt)))).takeWhile
      isGoSpace = w1 :: ws1t :=
    (takeWhile_middle (w1 :: ws1t) st (stt ++ ((w2 :: ws2t) ++ (v :: vt)))
      hw1 (wordChar_not_goSpace st (hsw st (by simp)))).1
  have e2' : ((w1 :: ws1t) ++ ((st :: stt) ++ ((w2 :: ws2t) ++ (v :: vt)))).dropWhile
      isGoSpace = (st :: stt) ++ ((w2 :: ws2t) ++ (v :: vt)) :=
    (takeWhile_middle (w1 :: ws1t) st (stt ++ ((w2 :: ws2t) ++ (v :: vt)))
      hw1 (wordChar_not_goSpace st (hsw st (by simp)))).2
  have e3 : ((st :: stt) ++ ((w2 :: ws2t) ++ (v :: vt))).takeWhile isWordChar = st :: stt :=
    (takeWhile_middle (st :: stt) w2 (ws2t ++ (v :: vt))
      hsw (goSpace_not_wordChar w2 (hw2 w2 (by simp)))).1
  have e3' : ((st :: stt) ++ ((w2 :: ws2t) ++ (v :: vt))).dropWhile isWordChar =
      (w2 :: ws2t) ++ (v :: vt) :=
    (takeWhile_middle (st :: stt) w2 (ws2t ++ (v :: vt))
      hsw (goSpace_not_wordChar w2 (hw2 w2 (by simp)))).2
  have e4 : ((w2 :: ws2t) ++ (v :: vt)).takeWhile isGoSpace = w2 :: ws2t :=
    (takeWhile_middle (w2 :: ws2t) v vt hw2
      (digit_not_goSpace v (hvd v (by simp)))).1
  have e4' : ((w2 :: ws2t) ++ (v :: vt)).dropWhile isGoSpace = v :: vt :=
    (takeWhile_middle (w2 :: ws2t) v vt hw2
      (digit_not_goSpace v (hvd v (by simp)))).2
  have e5 : (v :: vt).takeWhile isDigitChar = v :: vt :=
    List.takeWhile_eq_self_iff.mpr hvd
  have e5' : (v :: vt).dropWhile isDigitChar = [] :=
    List.dropWhile_eq_nil_iff.mpr hvd
  simp only [parseCore, e1, e1', e2, e2', e3, e3', e4, e4', e5, e5',
    List.isEmpty_eq_false.mpr hn, List.isEmpty_cons, Bool.false_eq_true, if_false,
    List.all_nil, if_true]

/-- The verbose-line regex accepts exactly the shaped line, with the
marker group filled iff the line carries the leading `*`. -/
theorem matchVerboseLine_shaped (star : Bool) (ws0 nameF ws1 stateF ws2 verF : List Char)
    (hws0 : ∀ c ∈ ws0, isGoSpace c = true)
    (hn : nameF ≠ []) (hnu : ∀ c ∈ nameF, isGoUnicodeSpace c = false)
    (hnstar : nameF.head? ≠ some '*')
    (hw1ne : ws1 ≠ []) (hw1 : ∀ c ∈ ws1, isGoSpace c = true)
    (hsne : stateF ≠ []) (hsw : ∀ c ∈ stateF, isWordChar c = true)
    (hw2ne : ws2 ≠ []) (hw2 : ∀ c ∈ ws2, isGoSpace c = true)
    (hvne : verF ≠ []) (hvd : ∀ c ∈ verF, isDigitChar c = true) :
    matchVerboseLine ((if star then '*' :: ws0 else []) ++
        (nameF ++ (ws1 ++ (stateF ++ (ws2 ++ verF))))) =
      some (star, nameF, stateF, verF) := by
  obtain ⟨n0, nt, rfl⟩ : ∃ a t, nameF = a :: t := by
    cases nameF with
    | nil => exact absurd rfl hn
    | cons a t => exact ⟨a, t, rfl⟩
  have hn0 : isGoSpace n0 = false :=
    not_unicodeSpace_not_goSpace n0 (hnu n0 (by simp))
  have hcore : parseCore (n0 :: (nt ++ (ws1 ++ (stateF ++ (ws2 ++ verF))))) =
      some (n0 :: nt, stateF, verF) :=
    parseCore_shaped (n0 :: nt) ws1 stateF ws2 verF
      hn hnu hw1ne hw1 hsne hsw hw2ne hw2 hvne hvd
  cases star with
  | true =>
    simp only [if_true, matchVerboseLine, List.cons_append]
    have hd : List.dropWhile isGoSpace
        ('*' :: (ws0 ++ (n0 :: (nt ++ (ws1 ++ (stateF ++ (ws2 ++ verF))))))) =
        '*' :: (ws0 ++ (n0 :: (nt ++ (ws1 ++ (stateF ++ (ws2 ++ verF)))))) := by
      apply dropWhile_eq_self_of_head
      intro c hc
      simp only [List.head?_cons, Option.some.injEq] at hc
      subst hc
      rfl
    have hd2 : List.dropWhile isGoSpace
        (ws0 ++ (n0 :: (nt ++ (ws1 ++ (stateF ++ (ws2 ++ verF)))))) =
        n0 :: (nt ++ (ws1 ++ (stateF ++ (ws2 ++ verF)))) := by
      rw [List.dropWhile_append_of_pos hws0]
      apply dropWhile_eq_self_of_head
      intro c hc
      simp only [List.head?_cons, Option.some.injEq] at hc
      subst hc
      exact hn0
    rw [hd]
    split
    · next r2 heq =>
      injection heq with _ h2
      subst h2
      rw [hd2, hcore]
    · next hne2 =>
      exact absurd rfl (hne2 (ws0 ++ (n0 :: (nt ++ (ws1 ++ (stateF ++ (ws2 ++ verF)))))))
  | false =>
    simp only [Bool.false_eq_true, if_false, List.nil_append, matchVerboseLine,
      List.cons_append]
    have hd : List.dropWhile isGoSpace
        (n0 :: (nt ++ (ws1 ++ (stateF ++ (ws2 ++ verF))))) =
        n0 :: (nt ++ (ws1 ++ (stateF ++ (ws2 ++ verF)))) := by
      apply dropWhile_eq_self_of_head
      intro c hc
      simp only [List.head?_cons, Option.some.injEq] at hc
      subst hc
      exact hn0
    rw [hd]
    have hn0star : n0 ≠ '*' := by
      intro he
      exact hnstar (by rw [List.head?_cons, he])
    split
    · next r2 heq =>
      exfalso
      injection heq with h1 _
      exact hn0star h1
    · rw [hcore]
      rfl

/-- One parser step on a well-shaped data line yields exactly the
expected record. -/
theorem parseVerboseLine_shaped (l : List Char) (sp : LineSpec)
    (h : ShapedLine l sp) : parseVerboseLine l = some (recordOfSpec sp) := by
  obtain ⟨pad0, ws0, ws1, ws2, pad1, rfl, hp0, hp1, hws0, hw1ne, hw1, hw2ne, hw2,
    hnne, hnu, hnstar, hsne, hsw, hvne, hvd⟩ := h
  have hwsusta : ∀ c ∈ sp.verF, isGoUnicodeSpace c = false :=
    fun c hc => wordChar_not_unicodeSpace c (digit_isWordChar c (hvd c hc))
  have hcorene : (if sp.star then '*' :: ws0 else []) ++
      (sp.nameF ++ (ws1 ++ (sp.stateF ++ (ws2 ++ sp.verF)))) ≠ [] := by
    cases hs : sp.star <;> simp [hnne]
  have hhead : ∀ c, ((if sp.star then '*' :: ws0 else []) ++
      (sp.nameF ++ (ws1 ++ (sp.stateF ++ (ws2 ++ sp.verF))))).head? = some c →
      isGoUnicodeSpace c = false := by
    intro c hc
    cases hs : sp.star with
    | true =>
      rw [hs] at hc
      simp only [if_true, List.cons_append, List.head?_cons, Option.some.injEq] at hc
      subst hc
      rfl
    | false =>
      rw [hs] at hc
      simp only [Bool.false_eq_true, if_false, List.nil_append] at hc
      have hcm : c ∈ sp.nameF := by
        cases hname : sp.nameF with
        | nil => exact absurd hname hnne
        | cons a t =>
          rw [hname] at hc
          simp only [List.cons_append, List.head?_cons, Option.some.injEq] at hc
          subst hc
          exact List.mem_cons_self _ _
      exact hnu c hcm
  have hvertail : ∀ c, ((if sp.star then '*' :: ws0 else []) ++
      (sp.nameF ++ (ws1 ++ (sp.stateF ++ (ws2 ++ sp.verF))))).getLast? = some c →
      isGoUnicodeSpace c = false := by
    intro c hc
    rw [List.getLast?_append_of_ne_nil _ (by simp [hnne]),
      List.getLast?_append_of_ne_nil _ (by simp [hw1ne]),
      List.getLast?_append_of_ne_nil _ (by simp [hsne]),
      List.getLast?_append_of_ne_nil _ (by simp [hw2ne]),
      List.getLast?_append_of_ne_nil _ hvne] at hc
    exact hwsusta c (List.mem_of_mem_getLast? hc)
  have htrim := trimGoL_padded pad0 _ pad1 hcorene hp0 hp1 hhead hvertail
  simp only [parseVerboseLine, htrim, List.isEmpty_eq_false.mpr hcorene,
    Bool.false_eq_true, if_false]
  rw [matchVerboseLine_shaped sp.star ws0 sp.nameF ws1 sp.stateF ws2 sp.verF
    hws0 hnne hnu hnstar hw1ne hw1 hsne hsw hw2ne hw2 hvne hvd]
  have t1 : trimGo (String.mk sp.nameF) = String.mk sp.nameF := by
    show String.mk (trimGoL sp.nameF) = _
    rw [trimGoL_id sp.nameF hnu]
  have t2 : trimGo (String.mk sp.stateF) = String.mk sp.stateF := by
    show String.mk (trimGoL sp.stateF) = _
    rw [trimGoL_id sp.stateF (fun c hc => wordChar_not_unicodeSpace c (hsw c hc))]
  have t3 : trimGo (String.mk sp.verF) = String.mk sp.verF := by
    show String.mk (trimGoL sp.verF) = _
    rw [trimGoL_id sp.verF hwsusta]
  simp [recordOfSpec, t1, t2, t3]

/-- The per-line correspondence lifts to the whole data section. -/
theorem filterMap_parseVerboseLine_forall₂ (ls : List (List Char))
    (specs : List (Option LineSpec)) (h : List.Forall₂ LineShape ls specs) :
    ls.filterMap parseVerboseLine = specs.filterMap (fun so => so.map recordOfSpec) := by
  induction h with
  | nil => rfl
  | @cons l so ls' specs' hR _ ih =>
    cases so with
    | none =>
      have hnone : parseVerboseLine l = none := by
        simp only [LineShape] at hR
        simp [parseVerboseLine, hR]
      simp [List.filterMap_cons, hnone, ih]
    | some sp =>
      have hsome := parseVerboseLine_shaped l sp hR
      simp [List.filterMap_cons, hsome, ih]

/-- C2: for every verbose listing output whose data lines (after
BOM/null stripping and header skipping) are blank or match the shape
`[*] name state-word version-digits`, `parseWSLList` returns exactly one
record per non-blank data line, in input order, with the default flag
set iff the line carried the leading `*` marker; in particular the
two-line example input yields `{Ubuntu-22.04, Running, 2, default}` then
`{Debian, Stopped, 2, not-default}`. -/
theorem parseWSLList_wellFormed (output : String) (specs : List (Option LineSpec))
    (h : List.Forall₂ LineShape (dataLines output) specs) :
    parseWSLList output = specs.filterMap (fun so => so.map recordOfSpec) ∧
    parseWSLList exampleListing =
      [⟨"Ubuntu-22.04", "Running", "2", true⟩, ⟨"Debian", "Stopped", "2", false⟩] := by
  constructor
  · exact filterMap_parseVerboseLine_forall₂ (dataLines output) specs h
  · rfl

/-- Witness for C2 at the specification's two-line example. -/
theorem parseWSLList_wellFormed_witness :
    parseWSLList exampleListing =
      [some (⟨true, "Ubuntu-22.04".data, "Running".data, "2".data⟩ : LineSpec),
       some (⟨false, "Debian".data, "Stopped".data, "2".data⟩ : LineSpec),
       (none : Option LineSpec)].filterMap (fun so => so.map recordOfSpec) := by
  have hdl : dataLines exampleListing =
      ["* Ubuntu-22.04   Running   2".data, "  Debian   Stopped   2".data, []] := by
    rfl
  have h1 : ShapedLine "* Ubuntu-22.04   Running   2".data
      ⟨true, "Ubuntu-22.04".data, "Running".data, "2".data⟩ := by
    refine ⟨[], [' '], "   ".data, "   ".data, [], ?_, ?_, ?_, ?_, ?_, ?_, ?_, ?_,
      ?_, ?_, ?_, ?_, ?_, ?_, ?_⟩ <;> decide
  have h2 : ShapedLine "  Debian   Stopped   2".data
      ⟨false, "Debian".data, "Stopped".data, "2".data⟩ := by
    refine ⟨"  ".data, [], "   ".data, "   ".data, [], ?_, ?_, ?_, ?_, ?_, ?_, ?_, ?_,
      ?_, ?_, ?_, ?_, ?_, ?_, ?_⟩ <;> decide
  have hfa : List.Forall₂ LineShape (dataLines exampleListing)
      [some ⟨true, "Ubuntu-22.04".data, "Running".data, "2".data⟩,
       some ⟨false, "Debian".data, "Stopped".data, "2".data⟩, none] := by
    rw [hdl]
    exact .cons h1 (.cons h2 (.cons rfl .nil))
  exact (parseWSLList_wellFormed exampleListing _ hfa).1

end AutoWSL
